import Mathlib

/-!
# go-task-api: the record store (`store.go`) and its HTTP handlers (`main.go`)

A shallow embedding of `TaskStore`, its operations, and the handlers and routes
that call them.

* `int64` values are integers; the two places where the source does arithmetic
  on them (`s.nextID++` in `Create`, `max + 1` in `Load`) wrap around as Go's
  signed 64-bit addition does (`wrapInt64`).
* `map[int64]Task` is a finite map with unique keys (`AList`); only lookups,
  key membership and the entry list are observed, never an iteration order.
* The `sync.RWMutex` is not modelled: every operation is one atomic step
  `TaskStore → result × TaskStore`. `Save` alone is also given in its two
  halves, the part under the read lock and the part after it
  (`saveSnapshot`, `saveWrite`), to follow what it encodes when another call
  runs in between.
* The file system and `encoding/json` are outside the repository: a `Disk`
  maps a path to the state of the file there, and a `Codec` holds
  `json.MarshalIndent` / `json.Unmarshal` on `diskImage`.
-/

namespace TaskApi

/-- Go's wrap-around of a mathematical integer into the `int64` range. -/
def wrapInt64 (x : Int) : Int :=
  (x + 9223372036854775808) % 18446744073709551616 - 9223372036854775808

/-- Largest `int64`, `math.MaxInt64`. -/
def maxInt64 : Int := 9223372036854775807

/-- Smallest `int64`, `math.MinInt64`. -/
def minInt64 : Int := -9223372036854775808

/-- The record `type Task struct { ID int64; Title string; Done bool }`. -/
structure Task where
  ID : Int
  Title : String
  Done : Bool
  deriving DecidableEq, Repr

/-- Go's `map[int64]Task`. -/
abbrev TaskMap := AList (fun _ : Int => Task)

/-- The record `type diskImage struct { NextID int64; Data map[int64]Task }`;
`Data = none` is the nil map that a missing or `null` field decodes to. -/
structure diskImage where
  NextID : Int
  Data : Option TaskMap
  deriving DecidableEq

/-- Errors returned by the store: `ErrNotFound`, and the errors passed on from
`os.ReadFile`, `json.Unmarshal`, `json.MarshalIndent` and `os.WriteFile`. -/
inductive StoreError where
  | ErrNotFound
  | readError
  | unmarshalError
  | marshalError
  | writeError
  deriving DecidableEq, Repr

/-- The fields of `type TaskStore struct` (the mutex left out). -/
structure TaskStore where
  data : TaskMap
  nextID : Int
  filePath : String
  deriving DecidableEq

/-- What the operating system holds at one path: no file, something that can
neither be read nor written as a file (a directory, a permission failure), or
a file with contents. -/
inductive FileState (β : Type) where
  | absent
  | denied
  | content (b : β)
  deriving DecidableEq

/-- The file system as the store sees it. -/
abbrev Disk (β : Type) := String → FileState β

/-- The two `encoding/json` calls of the store, on file contents of type `β`. -/
structure Codec (β : Type) where
  marshal : diskImage → Option β
  unmarshal : β → Option diskImage

/-- The store before `NewTaskStore` calls `Load`. -/
def emptyStore (filePath : String) : TaskStore :=
  { data := ∅, nextID := 1, filePath := filePath }

/-- `func (s *TaskStore) Create(title string) Task`. -/
def TaskStore.Create (s : TaskStore) (title : String) : Task × TaskStore :=
  let id := s.nextID
  let t : Task := { ID := id, Title := title, Done := false }
  (t, { s with nextID := wrapInt64 (s.nextID + 1), data := s.data.insert id t })

/-- `func (s *TaskStore) List() []Task`, in the order of the entry list. -/
def TaskStore.List (s : TaskStore) : List Task × TaskStore :=
  (s.data.entries.map (fun e => e.2), s)

/-- `func (s *TaskStore) Get(id int64) (Task, error)`. -/
def TaskStore.Get (s : TaskStore) (id : Int) : Except StoreError Task × TaskStore :=
  match s.data.lookup id with
  | none => (.error .ErrNotFound, s)
  | some t => (.ok t, s)

/-- `func (s *TaskStore) Update(t Task) error`. -/
def TaskStore.Update (s : TaskStore) (t : Task) : Except StoreError Unit × TaskStore :=
  match s.data.lookup t.ID with
  | none => (.error .ErrNotFound, s)
  | some _ => (.ok (), { s with data := s.data.insert t.ID t })

/-- `func (s *TaskStore) Delete(id int64) error`. -/
def TaskStore.Delete (s : TaskStore) (id : Int) : Except StoreError Unit × TaskStore :=
  match s.data.lookup id with
  | none => (.error .ErrNotFound, s)
  | some _ => (.ok (), { s with data := s.data.erase id })

/-- `os.WriteFile(path, b, 0644)`: fails on a path that cannot be written,
otherwise the file holds `b` afterwards. -/
def writeFile {β : Type} (disk : Disk β) (path : String) (b : β) : Option (Disk β) :=
  match disk path with
  | .denied => none
  | _ => some (fun p => if p = path then .content b else disk p)

/-- `func (s *TaskStore) Save() error`, with the disk it leaves behind. -/
def TaskStore.Save {β : Type} (c : Codec β) (disk : Disk β) (s : TaskStore) :
    Except StoreError Unit × TaskStore × Disk β :=
  if s.filePath = "" then (.ok (), s, disk)
  else
    let img : diskImage := { NextID := s.nextID, Data := some s.data }
    match c.marshal img with
    | none => (.error .marshalError, s, disk)
    | some b =>
      match writeFile disk s.filePath b with
      | none => (.error .writeError, s, disk)
      | some disk' => (.ok (), s, disk')

/-- The loop of `Load` that scans the keys for the largest one, from `max = 0`. -/
def maxKey (keys : List Int) : Int :=
  keys.foldl (fun max id => if id > max then id else max) 0

/-- The tail of `Load`, after `json.Unmarshal` succeeded with `img`. -/
def TaskStore.install (s : TaskStore) (img : diskImage) : TaskStore :=
  let data : TaskMap := match img.Data with
    | none => ∅
    | some d => d
  let nextID := if img.NextID > 0 then img.NextID else wrapInt64 (maxKey data.keys + 1)
  { s with data := data, nextID := nextID }

/-- `func (s *TaskStore) Load() error`. -/
def TaskStore.Load {β : Type} (c : Codec β) (disk : Disk β) (s : TaskStore) :
    Except StoreError Unit × TaskStore :=
  if s.filePath = "" then (.ok (), s)
  else
    match disk s.filePath with
    | .absent => (.ok (), s)
    | .denied => (.error .readError, s)
    | .content b =>
      match c.unmarshal b with
      | none => (.error .unmarshalError, s)
      | some img => (.ok (), s.install img)

/-- `func NewTaskStore(filePath string) *TaskStore`: the result of `Load` is dropped. -/
def NewTaskStore {β : Type} (c : Codec β) (disk : Disk β) (filePath : String) : TaskStore :=
  ((emptyStore filePath).Load c disk).2

/-- One call of the store API; `save` and `load` carry the file system as it
is when the call is made. -/
inductive Op (β : Type) where
  | create (title : String)
  | list
  | get (id : Int)
  | update (t : Task)
  | delete (id : Int)
  | save (disk : Disk β)
  | load (disk : Disk β)

/-- The store after one call. -/
def step {β : Type} (c : Codec β) (s : TaskStore) : Op β → TaskStore
  | .create title => (s.Create title).2
  | .list => s.List.2
  | .get id => (s.Get id).2
  | .update t => (s.Update t).2
  | .delete id => (s.Delete id).2
  | .save disk => (s.Save c disk).2.1
  | .load disk => (s.Load c disk).2

/-- The store after a sequence of calls, first call first. -/
def run {β : Type} (c : Codec β) (s : TaskStore) (ops : List (Op β)) : TaskStore :=
  ops.foldl (step c) s

/-- The `Create` calls of a sequence, in order: for each, the store it was
called on and the task it returned. -/
def creations {β : Type} (c : Codec β) (s : TaskStore) : List (Op β) → List (TaskStore × Task)
  | [] => []
  | op :: ops =>
    (match op with
      | .create title => [(s, (s.Create title).1)]
      | _ => []) ++ creations c (step c s op) ops

/-- Number of `Create` calls in a sequence. -/
def countCreates {β : Type} : List (Op β) → Nat
  | [] => 0
  | op :: ops =>
    (match op with
      | .create _ => 1
      | _ => 0) + countCreates ops

/-- The sequence `Create(""), Delete(first), Create(""), Delete(first + 1), ...`
of `n` rounds: on an empty store whose counter is `first` every round creates a
task and deletes it again. -/
def churn {β : Type} (first : Int) : Nat → List (Op β)
  | 0 => []
  | n + 1 => .create "" :: .delete first :: churn (first + 1) n

/-- The image a `Load` call installs, if it gets that far: `none` without a
file path, without a file, and when reading or decoding fails. -/
def loadedImage {β : Type} (c : Codec β) (disk : Disk β) (s : TaskStore) : Option diskImage :=
  if s.filePath = "" then none
  else
    match disk s.filePath with
    | .content b => c.unmarshal b
    | _ => none

/-- The keys of an image's map (none for the nil map). -/
def diskImage.keys (img : diskImage) : List Int :=
  match img.Data with
  | none => []
  | some d => d.keys

/-- Invariant of the store: every key of the map is below the counter. -/
def keysBelowCounter (s : TaskStore) : Prop :=
  ∀ k ∈ s.data.keys, k < s.nextID

instance (s : TaskStore) : Decidable (keysBelowCounter s) :=
  inferInstanceAs (Decidable (∀ k ∈ s.data.keys, k < s.nextID))

/-- An image whose counter fits its keys: a positive `next_id` is above every
key, and when `next_id` is not positive every key is below `MaxInt64`. -/
def consistentImage (img : diskImage) : Prop :=
  if img.NextID > 0 then ∀ k ∈ img.keys, k < img.NextID
  else ∀ k ∈ img.keys, k < maxInt64

instance (img : diskImage) : Decidable (consistentImage img) :=
  inferInstanceAs (Decidable (if img.NextID > 0 then ∀ k ∈ img.keys, k < img.NextID
    else ∀ k ∈ img.keys, k < maxInt64))

/-- Calls that keep `keysBelowCounter`: `Create` below `MaxInt64`, `Load` of a
consistent image (or of nothing), and every other call. -/
def keepsKeysBelow {β : Type} (c : Codec β) (s : TaskStore) : Op β → Prop
  | .create _ => s.nextID < maxInt64
  | .load disk => ∀ img ∈ loadedImage c disk s, consistentImage img
  | _ => True

instance decKeepsKeysBelow {β : Type} (c : Codec β) (s : TaskStore) :
    (op : Op β) → Decidable (keepsKeysBelow c s op)
  | .create _ => inferInstanceAs (Decidable (s.nextID < maxInt64))
  | .load disk => inferInstanceAs (Decidable (∀ img ∈ loadedImage c disk s, consistentImage img))
  | .list => isTrue trivial
  | .get _ => isTrue trivial
  | .update _ => isTrue trivial
  | .delete _ => isTrue trivial
  | .save _ => isTrue trivial

/-- A sequence of calls each of which satisfies `keepsKeysBelow` in the state it
is made in. -/
def admissible {β : Type} (c : Codec β) (s : TaskStore) : List (Op β) → Prop
  | [] => True
  | op :: ops => keepsKeysBelow c s op ∧ admissible c (step c s op) ops

instance decAdmissible {β : Type} (c : Codec β) :
    (s : TaskStore) → (ops : List (Op β)) → Decidable (admissible c s ops)
  | _, [] => isTrue trivial
  | s, op :: ops =>
    @instDecidableAnd _ _ (decKeepsKeysBelow c s op) (decAdmissible c (step c s op) ops)

/-- Calls that do not lower the counter: `Create` below `MaxInt64`, `Load` of an
image whose `next_id` is positive and not below the counter (or of nothing), and
every other call. -/
def keepsCounter {β : Type} (c : Codec β) (s : TaskStore) : Op β → Prop
  | .create _ => s.nextID < maxInt64
  | .load disk => ∀ img ∈ loadedImage c disk s, 0 < img.NextID ∧ s.nextID ≤ img.NextID
  | _ => True

instance decKeepsCounter {β : Type} (c : Codec β) (s : TaskStore) :
    (op : Op β) → Decidable (keepsCounter c s op)
  | .create _ => inferInstanceAs (Decidable (s.nextID < maxInt64))
  | .load disk => inferInstanceAs
      (Decidable (∀ img ∈ loadedImage c disk s, 0 < img.NextID ∧ s.nextID ≤ img.NextID))
  | .list => isTrue trivial
  | .get _ => isTrue trivial
  | .update _ => isTrue trivial
  | .delete _ => isTrue trivial
  | .save _ => isTrue trivial

/-- A codec for concrete instances: a file's contents are given as the image
they encode, so encoding and decoding always succeed. -/
def imageCodec : Codec diskImage :=
  { marshal := fun img => some img, unmarshal := fun b => some b }

/-- A disk for concrete instances: one file at `path` encoding `img`, nothing else. -/
def oneFile (path : String) (img : diskImage) : Disk diskImage :=
  fun p => if p = path then .content img else .absent

/-- A disk for concrete instances: no file anywhere. -/
def noFiles : Disk diskImage := fun _ => .absent

/-! ### The HTTP handlers (`main.go`)

`strings.TrimSpace`, `strings.TrimPrefix`, `strconv.ParseInt` and the JSON
decoder are library code. A request body is given by what
`json.NewDecoder(r.Body).Decode` makes of it (`none` when it returns an error);
`strconv.ParseInt(·, 10, 64)` is a parameter of the router (`none` when it
returns an error). -/

/-- Go's `unicode.IsSpace`. -/
def isSpace (ch : Char) : Bool :=
  let n := ch.toNat
  n == 9 || n == 10 || n == 11 || n == 12 || n == 13 || n == 32 || n == 133 || n == 160 ||
  n == 5760 || (8192 ≤ n && n ≤ 8202) || n == 8232 || n == 8233 || n == 8239 ||
  n == 8287 || n == 12288

/-- Go's `strings.TrimSpace`: leading and trailing white space removed. -/
def TrimSpace (s : String) : String :=
  ⟨(s.data.dropWhile isSpace).rdropWhile isSpace⟩

/-- Go's `strings.TrimPrefix`. -/
def TrimPrefix (s pre : String) : String :=
  if pre.data.isPrefixOf s.data then ⟨s.data.drop pre.data.length⟩ else s

/-- The record `type createTaskInput struct { Title string }`. -/
structure createTaskInput where
  Title : String
  deriving DecidableEq

/-- The record `type updateTaskInput struct { Title *string; Done *bool }`;
`none` is the nil pointer of a field the body does not have. -/
structure updateTaskInput where
  Title : Option String
  Done : Option Bool
  deriving DecidableEq

/-- What a handler writes after the status code: nothing, an error text
(`http.Error`, `http.NotFound`), or the JSON of a task or of a task list
(`writeJSON`). -/
inductive Payload where
  | empty
  | text (msg : String)
  | task (t : Task)
  | tasks (ts : List Task)
  deriving DecidableEq

/-- The HTTP response of a handler. -/
structure Response where
  code : Nat
  body : Payload
  deriving DecidableEq

/-- A handler call seen from outside: the response, the store and the disk it
leaves, and whether it called `s.Save()`. -/
structure Outcome (β : Type) where
  response : Response
  store : TaskStore
  disk : Disk β
  saved : Bool

/-- The call `s.Save()` followed by the response a mutating handler gives: 500
when `Save` fails, `success` otherwise. -/
def persist {β : Type} (c : Codec β) (disk : Disk β) (s : TaskStore) (success : Response) :
    Outcome β :=
  match s.Save c disk with
  | (.error _, s', disk') =>
    { response := ⟨500, .text "failed to persist"⟩, store := s', disk := disk', saved := true }
  | (.ok _, s', disk') =>
    { response := success, store := s', disk := disk', saved := true }

/-- `func handleCreateTask(w, r, s)`. -/
def handleCreateTask {β : Type} (c : Codec β) (disk : Disk β) (s : TaskStore)
    (body : Option createTaskInput) : Outcome β :=
  match body with
  | none =>
    { response := ⟨400, .text "invalid body (need non-empty title)"⟩,
      store := s, disk := disk, saved := false }
  | some inp =>
    if TrimSpace inp.Title = "" then
      { response := ⟨400, .text "invalid body (need non-empty title)"⟩,
        store := s, disk := disk, saved := false }
    else
      let r := s.Create (TrimSpace inp.Title)
      persist c disk r.2 ⟨201, .task r.1⟩

/-- `func handleListTasks(w, r, s)`. -/
def handleListTasks {β : Type} (disk : Disk β) (s : TaskStore) : Outcome β :=
  { response := ⟨200, .tasks s.List.1⟩, store := s.List.2, disk := disk, saved := false }

/-- `func handleGetTask(w, r, s, id)`. -/
def handleGetTask {β : Type} (disk : Disk β) (s : TaskStore) (id : Int) : Outcome β :=
  match s.Get id with
  | (.error _, s') =>
    { response := ⟨404, .text "404 page not found"⟩, store := s', disk := disk, saved := false }
  | (.ok t, s') =>
    { response := ⟨200, .task t⟩, store := s', disk := disk, saved := false }

/-- The two field assignments of `handleUpdateTask`: `none` when a title is
given that is empty after trimming (the handler answers 400 there), otherwise
the record with the given fields replaced. -/
def mergeUpdate (existing : Task) (inp : updateTaskInput) : Option Task :=
  let titled : Option Task :=
    match inp.Title with
    | none => some existing
    | some x =>
      if TrimSpace x = "" then none else some { existing with Title := TrimSpace x }
  match titled with
  | none => none
  | some t =>
    match inp.Done with
    | none => some t
    | some d => some { t with Done := d }

/-- The merged record in the words of the specification: the title is the
trimmed supplied title if a title was supplied and the previous title
otherwise, the done flag is the supplied value if one was supplied and the
previous flag otherwise, the id is the previous id. -/
def mergedRecord (existing : Task) (inp : updateTaskInput) : Task :=
  { ID := existing.ID,
    Title := match inp.Title with
      | some x => TrimSpace x
      | none => existing.Title,
    Done := match inp.Done with
      | some d => d
      | none => existing.Done }

/-- `func handleUpdateTask(w, r, s, id)`. -/
def handleUpdateTask {β : Type} (c : Codec β) (disk : Disk β) (s : TaskStore) (id : Int)
    (body : Option updateTaskInput) : Outcome β :=
  match s.Get id with
  | (.error _, s1) =>
    { response := ⟨404, .text "404 page not found"⟩, store := s1, disk := disk, saved := false }
  | (.ok existing, s1) =>
    match body with
    | none =>
      { response := ⟨400, .text "invalid body"⟩, store := s1, disk := disk, saved := false }
    | some inp =>
      match mergeUpdate existing inp with
      | none =>
        { response := ⟨400, .text "title cannot be empty"⟩,
          store := s1, disk := disk, saved := false }
      | some merged =>
        match s1.Update merged with
        | (.error _, s2) =>
          { response := ⟨404, .text "404 page not found"⟩,
            store := s2, disk := disk, saved := false }
        | (.ok _, s2) => persist c disk s2 ⟨200, .task merged⟩

/-- `func handleDeleteTask(w, r, s, id)`. -/
def handleDeleteTask {β : Type} (c : Codec β) (disk : Disk β) (s : TaskStore) (id : Int) :
    Outcome β :=
  match s.Delete id with
  | (.error _, s1) =>
    { response := ⟨404, .text "404 page not found"⟩, store := s1, disk := disk, saved := false }
  | (.ok _, s1) => persist c disk s1 ⟨204, .empty⟩

/-- An HTTP request as the two routes of `main` read it: method, URL path, and
the body as decoded into each of the two input records. -/
structure Request where
  Method : String
  Path : String
  createBody : Option createTaskInput
  updateBody : Option updateTaskInput

/-- Where the `/tasks/` route sends a request: the 400 answer for a bad id, one
of the three handlers with the parsed id, or the 405 answer. -/
inductive Route where
  | invalidID
  | get (id : Int)
  | update (id : Int)
  | delete (id : Int)
  | methodNotAllowed
  deriving DecidableEq

/-- The decision of the `/tasks/` route of `main`: trim the prefix, parse the
id, reject a parse error or an id `<= 0`, then switch on the method. -/
def routeTask (parseInt : String → Option Int) (r : Request) : Route :=
  match parseInt (TrimPrefix r.Path "/tasks/") with
  | none => .invalidID
  | some id =>
    if id ≤ 0 then .invalidID
    else if r.Method = "GET" then .get id
    else if r.Method = "PUT" then .update id
    else if r.Method = "DELETE" then .delete id
    else .methodNotAllowed

/-- The `/tasks/` route of `main`, with the handler it calls. -/
def serveTask {β : Type} (parseInt : String → Option Int) (c : Codec β) (disk : Disk β)
    (s : TaskStore) (r : Request) : Outcome β :=
  match routeTask parseInt r with
  | .invalidID =>
    { response := ⟨400, .text "invalid id"⟩, store := s, disk := disk, saved := false }
  | .get id => handleGetTask disk s id
  | .update id => handleUpdateTask c disk s id r.updateBody
  | .delete id => handleDeleteTask c disk s id
  | .methodNotAllowed =>
    { response := ⟨405, .text "method not allowed"⟩, store := s, disk := disk, saved := false }

/-- The `/tasks` route of `main`. -/
def serveTasks {β : Type} (c : Codec β) (disk : Disk β) (s : TaskStore) (r : Request) :
    Outcome β :=
  if r.Method = "GET" then handleListTasks disk s
  else if r.Method = "POST" then handleCreateTask c disk s r.createBody
  else
    { response := ⟨405, .text "method not allowed"⟩, store := s, disk := disk, saved := false }

/-- One call of a mutating handler. -/
inductive Call where
  | create (body : Option createTaskInput)
  | update (id : Int) (body : Option updateTaskInput)
  | delete (id : Int)

/-- The outcome of one handler call. -/
def handle {β : Type} (c : Codec β) (disk : Disk β) (s : TaskStore) : Call → Outcome β
  | .create body => handleCreateTask c disk s body
  | .update id body => handleUpdateTask c disk s id body
  | .delete id => handleDeleteTask c disk s id

/-- The store and disk after a sequence of handler calls, first call first. -/
def serveAll {β : Type} (c : Codec β) (s : TaskStore) (disk : Disk β) :
    List Call → TaskStore × Disk β
  | [] => (s, disk)
  | call :: calls =>
    serveAll c (handle c disk s call).store (handle c disk s call).disk calls

/-- A title as the handlers leave it: not empty and equal to its trimmed form. -/
def goodTitle (title : String) : Prop :=
  title ≠ "" ∧ TrimSpace title = title

instance (title : String) : Decidable (goodTitle title) :=
  inferInstanceAs (Decidable (title ≠ "" ∧ TrimSpace title = title))

/-- Every entry of the map is stored under the id of its task. -/
def keysMatchIDs (m : TaskMap) : Prop :=
  ∀ e ∈ m.entries, e.2.ID = e.1

instance (m : TaskMap) : Decidable (keysMatchIDs m) :=
  inferInstanceAs (Decidable (∀ e ∈ m.entries, e.2.ID = e.1))

/-- Every task in the store has a title that is not empty and equal to its
trimmed form. -/
def allTitlesGood (s : TaskStore) : Prop :=
  ∀ e ∈ s.data.entries, goodTitle e.2.Title

instance (s : TaskStore) : Decidable (allTitlesGood s) :=
  inferInstanceAs (Decidable (∀ e ∈ s.data.entries, goodTitle e.2.Title))

/-- A decimal `strconv.ParseInt(s, 10, 64)` for concrete instances: an optional
sign, at least one digit, digits only, and a value within `int64`. -/
def parseInt10 (s : String) : Option Int :=
  let digits (cs : List Char) : Option Int :=
    if cs ≠ [] ∧ cs.all (fun ch => 48 ≤ ch.toNat && ch.toNat ≤ 57) then
      some (cs.foldl (fun acc ch => 10 * acc + ((ch.toNat - 48 : Nat) : Int)) 0)
    else none
  match s.data with
  | [] => none
  | ch :: rest =>
    if ch.toNat = 45 then
      match digits rest with
      | some n => if n ≤ 9223372036854775808 then some (-n) else none
      | none => none
    else
      match digits (if ch.toNat = 43 then rest else ch :: rest) with
      | some n => if n ≤ 9223372036854775807 then some n else none
      | none => none

/-- The part of `Save` under the read lock (`s.mu.RLock()` to `s.mu.RUnlock()`):
`none` without a file path, otherwise the copied counter. `Data: s.data` copies
no entry: the image shares the store's map. -/
def TaskStore.saveSnapshot (s : TaskStore) : Option Int :=
  if s.filePath = "" then none else some s.nextID

/-- The part of `Save` after `s.mu.RUnlock()`: `json.MarshalIndent` of the image
and `os.WriteFile`. The image holds the counter copied under the lock and the
store's map as it is when it is encoded, `now` being the store at that time
(its map is the shared one as long as it was changed in place, by `Create`,
`Update` and `Delete`). -/
def TaskStore.saveWrite {β : Type} (c : Codec β) (disk : Disk β) (nextID : Int)
    (now : TaskStore) : Except StoreError Unit × Disk β :=
  match c.marshal { NextID := nextID, Data := some now.data } with
  | none => (.error .marshalError, disk)
  | some b =>
    match writeFile disk now.filePath b with
    | none => (.error .writeError, disk)
    | some disk' => (.ok (), disk')

/-- `Save` on a store that other callers may use meanwhile: the snapshot is
taken at `s`, the calls `between` run to completion, then the image is encoded
and written. -/
def saveInterleaved {β : Type} (c : Codec β) (disk : Disk β) (s : TaskStore)
    (between : List (Op β)) : Except StoreError Unit × Disk β :=
  match s.saveSnapshot with
  | none => (.ok (), disk)
  | some n => TaskStore.saveWrite c disk n (run c s between)

/-- A disk for concrete instances: `path` is a directory, nothing else exists. -/
def directoryAt (path : String) : Disk diskImage :=
  fun p => if p = path then .denied else .absent

/-- A codec for concrete instances with files that do not parse: contents are
either the image they encode or `none`, which `Unmarshal` rejects. -/
def partialCodec : Codec (Option diskImage) :=
  { marshal := fun img => some (some img), unmarshal := fun b => b }

/-- A disk for concrete instances: one file at `path` that does not parse. -/
def malformedFile (path : String) : Disk (Option diskImage) :=
  fun p => if p = path then .content none else .absent

/-! ## Arithmetic of the counter -/

theorem wrapInt64_of_range (x : Int) (h1 : minInt64 ≤ x) (h2 : x ≤ maxInt64) :
    wrapInt64 x = x := by
  unfold wrapInt64
  unfold minInt64 at h1
  unfold maxInt64 at h2
  omega

theorem wrapInt64_succ_max : wrapInt64 (maxInt64 + 1) = minInt64 := by
  decide

/-! ## Create -/

theorem create_lookup_self (s : TaskStore) (title : String) :
    (s.Create title).2.data.lookup s.nextID
      = some { ID := s.nextID, Title := title, Done := false } := by
  simp [TaskStore.Create]

theorem create_lookup_ne (s : TaskStore) (title : String) (j : Int) (hj : j ≠ s.nextID) :
    (s.Create title).2.data.lookup j = s.data.lookup j := by
  simp [TaskStore.Create, AList.lookup_insert_ne hj]

theorem create_nextID_of_lt (s : TaskStore) (title : String)
    (h1 : minInt64 ≤ s.nextID) (h2 : s.nextID < maxInt64) :
    (s.Create title).2.nextID = s.nextID + 1 := by
  have h3 : minInt64 ≤ s.nextID + 1 := by omega
  have h4 : s.nextID + 1 ≤ maxInt64 := by omega
  simpa [TaskStore.Create] using wrapInt64_of_range (s.nextID + 1) h3 h4

/-- C1 (as amended): for every store state and title, `Create` returns
`{ID = nextID, Title = title, Done = false}`, stores exactly that task under key
`nextID`, leaves the entry under every other id (and the path) unchanged, and
sets the counter to the `int64` successor of `nextID`: `nextID + 1` while
`nextID` is an `int64` below `MaxInt64`, and `MinInt64` at `MaxInt64`. -/
theorem create_spec (s : TaskStore) (title : String) :
    (s.Create title).1 = { ID := s.nextID, Title := title, Done := false } ∧
    (s.Create title).2.data.lookup s.nextID
      = some { ID := s.nextID, Title := title, Done := false } ∧
    (∀ j : Int, j ≠ s.nextID → (s.Create title).2.data.lookup j = s.data.lookup j) ∧
    (s.Create title).2.filePath = s.filePath ∧
    (s.Create title).2.nextID = wrapInt64 (s.nextID + 1) ∧
    (minInt64 ≤ s.nextID → s.nextID < maxInt64 →
      (s.Create title).2.nextID = s.nextID + 1) ∧
    (s.nextID = maxInt64 → (s.Create title).2.nextID = minInt64) := by
  refine ⟨rfl, create_lookup_self s title, create_lookup_ne s title, rfl, rfl,
    create_nextID_of_lt s title, ?_⟩
  · intro h
    simp only [TaskStore.Create, h]
    exact wrapInt64_succ_max

/-- C1, instance: on the store holding task 1 with counter 2, `Create "b"`
returns task 2, keeps task 1 and moves the counter to 3. -/
theorem create_spec_witness :
    (((emptyStore "").Create "a").2.Create "b").1 = { ID := 2, Title := "b", Done := false } ∧
    (((emptyStore "").Create "a").2.Create "b").2.data.lookup 1
      = some { ID := 1, Title := "a", Done := false } ∧
    (((emptyStore "").Create "a").2.Create "b").2.nextID = 3 :=
  have h := create_spec ((emptyStore "").Create "a").2 "b"
  ⟨h.1, (h.2.2.1 1 (by decide)).trans (by decide), h.2.2.2.2.2.1 (by decide) (by decide)⟩

/-- C1, counterexample: a store constructed from a file with
`next_id = 9223372036854775807` has its counter at `MaxInt64`; after `Create`
the counter is `MinInt64`, not `nextID + 1`. -/
theorem create_counter_overflow :
    (NewTaskStore imageCodec
      (oneFile "tasks.json" { NextID := 9223372036854775807, Data := none })
      "tasks.json").nextID = 9223372036854775807 ∧
    ((NewTaskStore imageCodec
      (oneFile "tasks.json" { NextID := 9223372036854775807, Data := none })
      "tasks.json").Create "a").2.nextID = -9223372036854775808 ∧
    ¬ ((NewTaskStore imageCodec
      (oneFile "tasks.json" { NextID := 9223372036854775807, Data := none })
      "tasks.json").Create "a").2.nextID
      = (NewTaskStore imageCodec
          (oneFile "tasks.json" { NextID := 9223372036854775807, Data := none })
          "tasks.json").nextID + 1 := by
  decide

/-! ## Get, Delete, Update -/

theorem get_of_lookup_none (s : TaskStore) (id : Int) (h : s.data.lookup id = none) :
    s.Get id = (.error .ErrNotFound, s) := by
  simp [TaskStore.Get, h]

theorem get_of_lookup_some (s : TaskStore) (id : Int) (t : Task)
    (h : s.data.lookup id = some t) : s.Get id = (.ok t, s) := by
  simp [TaskStore.Get, h]

theorem lookup_of_mem (m : TaskMap) (id : Int) (h : id ∈ m) : ∃ t, m.lookup id = some t :=
  Option.isSome_iff_exists.mp (AList.lookup_isSome.mpr h)

/-- C3: `Get` of the id just returned by `Create` succeeds with a record
identical to the one `Create` returned (and changes nothing); `Get` of an id
that is not a key of the map fails with `ErrNotFound` and leaves the store
unchanged, and an id is not a key once `Delete` has run on it. -/
theorem get_after_create_and_get_missing (s : TaskStore) :
    (∀ title : String,
      (s.Create title).2.Get (s.Create title).1.ID
        = (.ok (s.Create title).1, (s.Create title).2)) ∧
    (∀ id : Int, id ∉ s.data → s.Get id = (.error .ErrNotFound, s)) ∧
    (∀ id : Int, id ∉ (s.Delete id).2.data) := by
  refine ⟨?_, ?_, ?_⟩
  · intro title
    exact get_of_lookup_some _ _ _ (create_lookup_self s title)
  · intro id h
    exact get_of_lookup_none s id (AList.lookup_eq_none.mpr h)
  · intro id
    unfold TaskStore.Delete
    cases h : s.data.lookup id with
    | none => exact AList.lookup_eq_none.mp h
    | some t => simp [AList.mem_erase]

/-- C3, instance: on the store holding only task 1, `Get 5` fails with
`ErrNotFound` and returns the same store. -/
theorem get_after_create_and_get_missing_witness :
    (5 : Int) ∉ ((emptyStore "").Create "a").2.data ∧
    ((emptyStore "").Create "a").2.Get 5
      = (.error .ErrNotFound, ((emptyStore "").Create "a").2) :=
  ⟨by decide,
   (get_after_create_and_get_missing ((emptyStore "").Create "a").2).2.1 5 (by decide)⟩

/-- C4: if `id` is a key of the map, `Delete id` succeeds, a following `Get id`
fails with `ErrNotFound`, and every other entry, the counter and the path are
unchanged; if `id` is not a key, `Delete id` fails with `ErrNotFound` and the
store is exactly as before. -/
theorem delete_spec (s : TaskStore) (id : Int) :
    (id ∈ s.data →
      (s.Delete id).1 = .ok () ∧
      (s.Delete id).2.Get id = (.error .ErrNotFound, (s.Delete id).2) ∧
      (∀ j : Int, j ≠ id → (s.Delete id).2.data.lookup j = s.data.lookup j) ∧
      (s.Delete id).2.nextID = s.nextID ∧
      (s.Delete id).2.filePath = s.filePath) ∧
    (id ∉ s.data → s.Delete id = (.error .ErrNotFound, s)) := by
  constructor
  · intro h
    obtain ⟨t, ht⟩ := lookup_of_mem s.data id h
    have hd : s.Delete id = (.ok (), { s with data := s.data.erase id }) := by
      simp [TaskStore.Delete, ht]
    rw [hd]
    refine ⟨rfl, ?_, ?_, rfl, rfl⟩
    · exact get_of_lookup_none _ _ (AList.lookup_erase id s.data)
    · intro j hj
      exact AList.lookup_erase_ne hj
  · intro h
    simp [TaskStore.Delete, AList.lookup_eq_none.mpr h]

/-- C4, instance: deleting task 1 from the store holding tasks 1 and 2 succeeds,
`Get 1` then fails, task 2 and the counter stay; deleting the absent id 9 fails
and changes nothing. -/
theorem delete_spec_witness :
    ((((emptyStore "").Create "a").2.Create "b").2.Delete 1).1 = .ok () ∧
    (((((emptyStore "").Create "a").2.Create "b").2.Delete 1).2.Get 1).1
      = .error .ErrNotFound ∧
    ((((emptyStore "").Create "a").2.Create "b").2.Delete 1).2.data.lookup 2
      = some { ID := 2, Title := "b", Done := false } ∧
    ((((emptyStore "").Create "a").2.Create "b").2.Delete 1).2.nextID = 3 ∧
    (((emptyStore "").Create "a").2.Create "b").2.Delete 9
      = (.error .ErrNotFound, (((emptyStore "").Create "a").2.Create "b").2) :=
  have h := delete_spec (((emptyStore "").Create "a").2.Create "b").2 1
  have h1 := h.1 (by decide)
  ⟨h1.1, congrArg Prod.fst h1.2.1, (h1.2.2.1 2 (by decide)).trans (by decide),
   h1.2.2.2.1.trans (by decide),
   (delete_spec (((emptyStore "").Create "a").2.Create "b").2 9).2 (by decide)⟩

/-- C5 (as amended): if `t.ID` is not a key of the map, `Update t` fails with
`ErrNotFound` and leaves the store unchanged; if `t.ID` is a key, `Update t`
succeeds, a following `Get t.ID` returns exactly `t`, and every other entry, the
counter and the path are unchanged. In particular, when the record `Get id`
returns carries the id it is stored under, `Update` of that record with only the
title replaced succeeds and a following `Get id` returns the new title with the
same id and the same done flag. -/
theorem update_spec (s : TaskStore) :
    (∀ t : Task, t.ID ∉ s.data → s.Update t = (.error .ErrNotFound, s)) ∧
    (∀ t : Task, t.ID ∈ s.data →
      (s.Update t).1 = .ok () ∧
      (s.Update t).2.Get t.ID = (.ok t, (s.Update t).2) ∧
      (∀ j : Int, j ≠ t.ID → (s.Update t).2.data.lookup j = s.data.lookup j) ∧
      (s.Update t).2.nextID = s.nextID ∧
      (s.Update t).2.filePath = s.filePath) ∧
    (∀ (id : Int) (t0 : Task) (title : String),
      (s.Get id).1 = .ok t0 → t0.ID = id →
      (s.Update { t0 with Title := title }).1 = .ok () ∧
      ((s.Update { t0 with Title := title }).2.Get id).1
        = .ok { ID := id, Title := title, Done := t0.Done }) := by
  have known : ∀ t : Task, t.ID ∈ s.data →
      s.Update t = (.ok (), { s with data := s.data.insert t.ID t }) := by
    intro t h
    obtain ⟨u, hu⟩ := lookup_of_mem s.data t.ID h
    simp [TaskStore.Update, hu]
  refine ⟨?_, ?_, ?_⟩
  · intro t h
    simp [TaskStore.Update, AList.lookup_eq_none.mpr h]
  · intro t h
    rw [known t h]
    refine ⟨rfl, ?_, ?_, rfl, rfl⟩
    · exact get_of_lookup_some _ _ _ (AList.lookup_insert s.data)
    · intro j hj
      exact AList.lookup_insert_ne hj
  · intro id t0 title hget hid
    have hmem : id ∈ s.data := by
      by_contra hn
      rw [get_of_lookup_none s id (AList.lookup_eq_none.mpr hn)] at hget
      cases hget
    have hkey : ({ t0 with Title := title } : Task).ID ∈ s.data := by
      simpa [hid] using hmem
    rw [known _ hkey]
    refine ⟨rfl, ?_⟩
    have hl : (s.data.insert ({ t0 with Title := title } : Task).ID { t0 with Title := title }).lookup id
        = some { t0 with Title := title } := by
      have : ({ t0 with Title := title } : Task).ID = id := hid
      rw [this]
      exact AList.lookup_insert s.data
    rw [get_of_lookup_some _ id _ hl]
    simp [hid]

/-- C5, instance: on the store holding task 1 titled "a", `Get 1` then `Update`
with the title replaced by "b" succeeds and `Get 1` returns task 1 titled "b",
not done. -/
theorem update_spec_witness :
    (((emptyStore "").Create "a").2.Get 1).1 = .ok { ID := 1, Title := "a", Done := false } ∧
    (((emptyStore "").Create "a").2.Update { ID := 1, Title := "b", Done := false }).1
      = .ok () ∧
    ((((emptyStore "").Create "a").2.Update { ID := 1, Title := "b", Done := false }).2.Get 1).1
      = .ok { ID := 1, Title := "b", Done := false } :=
  have h := (update_spec ((emptyStore "").Create "a").2).2.2 1
    { ID := 1, Title := "a", Done := false } "b" rfl rfl
  ⟨rfl, h.1, h.2⟩

/-- C5, counterexample: in the store loaded from a file whose entry under key 1
is a record with `ID = 7`, `Get 1` succeeds, `Update` of the returned record
with the title replaced fails with `ErrNotFound`, and `Get 1` still returns the
old title. -/
theorem update_roundtrip_key_mismatch :
    ((NewTaskStore imageCodec
        (oneFile "tasks.json"
          { NextID := 2, Data := some (AList.insert 1 { ID := 7, Title := "x", Done := false } ∅) })
        "tasks.json").Get 1).1 = .ok { ID := 7, Title := "x", Done := false } ∧
    ((NewTaskStore imageCodec
        (oneFile "tasks.json"
          { NextID := 2, Data := some (AList.insert 1 { ID := 7, Title := "x", Done := false } ∅) })
        "tasks.json").Update { ID := 7, Title := "y", Done := false }).1
      = .error .ErrNotFound ∧
    (((NewTaskStore imageCodec
        (oneFile "tasks.json"
          { NextID := 2, Data := some (AList.insert 1 { ID := 7, Title := "x", Done := false } ∅) })
        "tasks.json").Update { ID := 7, Title := "y", Done := false }).2.Get 1).1
      = .ok { ID := 7, Title := "x", Done := false } ∧
    ¬ (((NewTaskStore imageCodec
        (oneFile "tasks.json"
          { NextID := 2, Data := some (AList.insert 1 { ID := 7, Title := "x", Done := false } ∅) })
        "tasks.json").Update { ID := 7, Title := "y", Done := false }).2.Get 1).1
      = .ok { ID := 7, Title := "y", Done := false } := by
  refine ⟨rfl, rfl, rfl, ?_⟩
  intro h
  have h2 : (Except.ok { ID := 7, Title := "x", Done := false } : Except StoreError Task)
      = .ok { ID := 7, Title := "y", Done := false } := h
  have h3 := congrArg Task.Title (Except.ok.inj h2)
  exact absurd h3 (by decide)

/-! ## Sequences of calls -/

theorem run_nil {β : Type} (c : Codec β) (s : TaskStore) : run c s [] = s := rfl

theorem run_cons {β : Type} (c : Codec β) (s : TaskStore) (op : Op β) (ops : List (Op β)) :
    run c s (op :: ops) = run c (step c s op) ops := rfl

theorem run_append {β : Type} (c : Codec β) (s : TaskStore) (xs ys : List (Op β)) :
    run c s (xs ++ ys) = run c (run c s xs) ys := by
  simp [run, List.foldl_append]

theorem creations_append {β : Type} (c : Codec β) (xs ys : List (Op β)) (s : TaskStore) :
    creations c s (xs ++ ys) = creations c s xs ++ creations c (run c s xs) ys := by
  induction xs generalizing s with
  | nil => rfl
  | cons op xs ih =>
    simp [creations, run_cons, ih]

theorem newTaskStore_no_path {β : Type} (c : Codec β) (disk : Disk β) :
    NewTaskStore c disk "" = emptyStore "" := by
  simp [NewTaskStore, TaskStore.Load, emptyStore]

theorem erase_insert_empty (k : Int) (t : Task) :
    ((∅ : TaskMap).insert k t).erase k = ∅ := by
  apply AList.ext
  simp [AList.erase, AList.insert, List.kinsert, List.kerase]

theorem churn_run {β : Type} (c : Codec β) (n : Nat) (s : TaskStore)
    (hd : s.data = ∅) (h1 : minInt64 ≤ s.nextID) (h2 : s.nextID + n ≤ maxInt64) :
    run c s (churn s.nextID n) = { s with nextID := s.nextID + n } := by
  induction n generalizing s with
  | zero => simp [churn, run_nil]
  | succ n ih =>
    have hlt : s.nextID < maxInt64 := by push_cast at h2; omega
    have hstep : step c (step c s (.create "")) (.delete s.nextID)
        = { s with nextID := s.nextID + 1 } := by
      have hw := create_nextID_of_lt s "" h1 hlt
      simp only [step]
      have hl := create_lookup_self s ""
      simp only [TaskStore.Delete, hl]
      cases s with
      | mk data nextID filePath =>
        simp only at hd
        subst hd
        simp only [TaskStore.Create] at hw ⊢
        simp only [hw, erase_insert_empty]
    simp only [churn, run_cons, hstep]
    have h3 : minInt64 ≤ s.nextID + 1 := by omega
    have h4 : s.nextID + 1 + (n : Int) ≤ maxInt64 := by push_cast at h2; omega
    have := ih { s with nextID := s.nextID + 1 } hd h3 h4
    simp only at this
    rw [this]
    have h5 : s.nextID + 1 + (n : Int) = s.nextID + ((n + 1 : Nat) : Int) := by
      push_cast; omega
    rw [h5]

theorem save_store {β : Type} (c : Codec β) (disk : Disk β) (s : TaskStore) :
    (s.Save c disk).2.1 = s := by
  unfold TaskStore.Save
  by_cases h : s.filePath = ""
  · simp [h]
  · simp only [h, if_false]
    cases hm : c.marshal { NextID := s.nextID, Data := some s.data } with
    | none => rfl
    | some b =>
      cases hw : writeFile disk s.filePath b with
      | none => simp [hw]
      | some d => simp [hw]

theorem load_no_path {β : Type} (c : Codec β) (disk : Disk β) (s : TaskStore)
    (h : s.filePath = "") : s.Load c disk = (.ok (), s) := by
  simp [TaskStore.Load, h]

/-- A call other than `Create`, on a store without a file path, keeps the
counter and the path and adds no key. -/
theorem step_frame {β : Type} (c : Codec β) (s : TaskStore) (op : Op β)
    (hop : ∀ title, op ≠ .create title) (hp : s.filePath = "") :
    (step c s op).nextID = s.nextID ∧ (step c s op).filePath = s.filePath ∧
    ∀ k : Int, k ∈ (step c s op).data → k ∈ s.data := by
  cases op with
  | create title => exact absurd rfl (hop title)
  | list => exact ⟨rfl, rfl, fun _ h => h⟩
  | get id =>
    simp only [step, TaskStore.Get]
    split <;> exact ⟨rfl, rfl, fun _ h => h⟩
  | update t =>
    simp only [step, TaskStore.Update]
    split
    · exact ⟨rfl, rfl, fun _ h => h⟩
    · rename_i u hu
      refine ⟨rfl, rfl, fun k hk => ?_⟩
      rcases (AList.mem_insert s.data).mp hk with h | h
      · rw [h]
        exact AList.lookup_isSome.mp (by simp [hu])
      · exact h
  | delete id =>
    simp only [step, TaskStore.Delete]
    split
    · exact ⟨rfl, rfl, fun _ h => h⟩
    · exact ⟨rfl, rfl, fun k hk => (AList.mem_erase.mp hk).2⟩
  | save disk =>
    have h : step c s (.save disk) = s := save_store c disk s
    rw [h]
    exact ⟨rfl, rfl, fun _ h => h⟩
  | load disk =>
    have h : step c s (.load disk) = s := by
      simp only [step, load_no_path c disk s hp]
    rw [h]
    exact ⟨rfl, rfl, fun _ h => h⟩

theorem creations_of_no_create {β : Type} (c : Codec β) (ops : List (Op β)) (s : TaskStore)
    (h : countCreates ops = 0) : creations c s ops = [] := by
  induction ops generalizing s with
  | nil => rfl
  | cons op ops ih =>
    cases op <;> simp_all [creations, countCreates]

/-- On a store without a file path whose keys are all below the counter, as
long as the counter stays within `int64`, the ids returned by `Create` increase
strictly, start at the counter, and are never keys of the map they are added to. -/
theorem creations_increasing {β : Type} (c : Codec β) (ops : List (Op β)) (s : TaskStore)
    (hp : s.filePath = "") (h1 : minInt64 ≤ s.nextID)
    (hk : ∀ k : Int, k ∈ s.data → k < s.nextID)
    (hc : s.nextID + countCreates ops ≤ maxInt64 + 1) :
    (creations c s ops).Pairwise (fun a b => a.2.ID < b.2.ID) ∧
    (∀ e ∈ creations c s ops, s.nextID ≤ e.2.ID) ∧
    (∀ e ∈ creations c s ops, e.2.ID ∉ e.1.data) := by
  induction ops generalizing s with
  | nil => simp [creations]
  | cons op ops ih =>
    by_cases hop : ∃ title, op = .create title
    · obtain ⟨title, rfl⟩ := hop
      have hcc : countCreates (Op.create title :: ops) = 1 + countCreates ops := rfl
      rw [hcc] at hc
      push_cast at hc
      have hfresh : s.nextID ∉ s.data := fun hm => lt_irrefl _ (hk _ hm)
      have hev : creations c s (Op.create title :: ops)
          = (s, (s.Create title).1) :: creations c (s.Create title).2 ops := rfl
      rw [hev]
      by_cases hlt : s.nextID < maxInt64
      · have hn := create_nextID_of_lt s title h1 hlt
        have hk2 : ∀ k : Int, k ∈ (s.Create title).2.data → k < (s.Create title).2.nextID := by
          intro k hmem
          rw [hn]
          rcases (AList.mem_insert s.data).mp hmem with h | h
          · omega
          · have := hk k h
            omega
        have hc2 : (s.Create title).2.nextID + countCreates ops ≤ maxInt64 + 1 := by
          rw [hn]; omega
        have h12 : minInt64 ≤ (s.Create title).2.nextID := by rw [hn]; omega
        obtain ⟨ihp, ihl, ihn⟩ := ih (s.Create title).2 hp h12 hk2 hc2
        rw [hn] at ihl
        refine ⟨List.Pairwise.cons ?_ ihp, ?_, ?_⟩
        · intro e he
          have := ihl e he
          show s.nextID < e.2.ID
          omega
        · intro e he
          rcases List.mem_cons.mp he with h | h
          · rw [h]; exact le_refl _
          · have := ihl e h
            omega
        · intro e he
          rcases List.mem_cons.mp he with h | h
          · rw [h]; exact hfresh
          · exact ihn e h
      · have hz : countCreates ops = 0 := by omega
        rw [creations_of_no_create c ops _ hz]
        refine ⟨List.pairwise_singleton _ _, ?_, ?_⟩
        · intro e he
          rw [List.mem_singleton.mp he]; exact le_refl _
        · intro e he
          rw [List.mem_singleton.mp he]; exact hfresh
    · have hop2 : ∀ title, op ≠ .create title := fun title h => hop ⟨title, h⟩
      obtain ⟨fn, fp, fk⟩ := step_frame c s op hop2 hp
      have hev : creations c s (op :: ops) = creations c (step c s op) ops := by
        cases op <;> first | rfl | exact absurd rfl (hop2 _)
      have hcc : countCreates (op :: ops) = countCreates ops := by
        cases op <;> first | exact absurd rfl (hop2 _) | simp [countCreates]
      rw [hev]
      rw [hcc] at hc
      have := ih (step c s op) (fp.trans hp) (by rw [fn]; exact h1)
        (fun k hm => by rw [fn]; exact hk k (fk k hm)) (by rw [fn]; exact hc)
      rw [fn] at this
      exact this

/-- C2 (as amended): on a store constructed with no file path, for every
sequence of calls (`Create`, `Get`, `List`, `Update`, `Delete`, and `Save` and
`Load`, which do nothing there) holding at most `2^63 - 1` `Create` calls, each
`Create` returns an id strictly greater than the id returned by every earlier
`Create`, and that id is not a key of the map before the call; so no id is
handed out twice, also not after its task was deleted. -/
theorem create_ids_increasing {β : Type} (c : Codec β) (disk : Disk β) (ops : List (Op β))
    (h : countCreates ops ≤ 9223372036854775807) :
    (creations c (NewTaskStore c disk "") ops).Pairwise (fun a b => a.2.ID < b.2.ID) ∧
    (∀ e ∈ creations c (NewTaskStore c disk "") ops, e.2.ID ∉ e.1.data) := by
  rw [newTaskStore_no_path]
  have hc : (emptyStore "").nextID + countCreates ops ≤ maxInt64 + 1 := by
    have : ((countCreates ops : Nat) : Int) ≤ 9223372036854775807 := by exact_mod_cast h
    simp only [emptyStore, maxInt64]
    omega
  have hk : ∀ k : Int, k ∈ (emptyStore "").data → k < (emptyStore "").nextID :=
    fun k hm => absurd hm (AList.not_mem_empty k)
  obtain ⟨h1, _, h3⟩ := creations_increasing c ops (emptyStore "") rfl (by decide) hk hc
  exact ⟨h1, h3⟩

/-- C2, instance: `Create "a"`, `Delete 1`, `Create "b"` on a store without a
file path returns ids 1 and 2: id 1 is not handed out again after its deletion. -/
theorem create_ids_increasing_witness :
    (creations imageCodec (NewTaskStore imageCodec noFiles "")
        [.create "a", .delete 1, .create "b"]).map (fun e => e.2.ID) = [1, 2] ∧
    (creations imageCodec (NewTaskStore imageCodec noFiles "")
        [.create "a", .delete 1, .create "b"]).Pairwise (fun a b => a.2.ID < b.2.ID) :=
  ⟨by decide,
   (create_ids_increasing imageCodec noFiles [.create "a", .delete 1, .create "b"]
      (by decide)).1⟩

/-- C2, counterexample: after `2^63 - 2` rounds of `Create` and `Delete` the
counter is `MaxInt64`; the next `Create` returns `MaxInt64` and the one after it
returns `MinInt64`, which is smaller. -/
theorem create_ids_wrap_around :
    ¬ (creations imageCodec (NewTaskStore imageCodec noFiles "")
        (churn 1 9223372036854775806 ++ [.create "", .create ""])).Pairwise
        (fun a b => a.2.ID < b.2.ID) := by
  intro hp
  rw [newTaskStore_no_path, creations_append] at hp
  have hrun := churn_run imageCodec 9223372036854775806 (emptyStore "") rfl
    (by decide) (by decide)
  have hrun2 : run imageCodec (emptyStore "") (churn 1 9223372036854775806)
      = { data := ∅, nextID := 9223372036854775807, filePath := "" } := hrun
  rw [hrun2] at hp
  have hlast := (List.pairwise_append.mp hp).2.1
  revert hlast
  decide

/-! ## Load -/

theorem load_eq {β : Type} (c : Codec β) (disk : Disk β) (s : TaskStore) :
    (s.Load c disk).2 =
      match loadedImage c disk s with
      | none => s
      | some img => s.install img := by
  unfold TaskStore.Load loadedImage
  by_cases h : s.filePath = ""
  · simp [h]
  · simp only [h, if_false]
    cases hf : disk s.filePath with
    | absent => rfl
    | denied => rfl
    | content b =>
      cases hu : c.unmarshal b with
      | none => simp [hu]
      | some img => simp [hu]

theorem load_result {β : Type} (c : Codec β) (disk : Disk β) (s : TaskStore) (img : diskImage)
    (h : loadedImage c disk s = some img) : s.Load c disk = (.ok (), s.install img) := by
  unfold loadedImage at h
  unfold TaskStore.Load
  by_cases hp : s.filePath = ""
  · simp [hp] at h
  · simp only [hp, if_false] at h ⊢
    cases hf : disk s.filePath with
    | absent => simp [hf] at h
    | denied => simp [hf] at h
    | content b =>
      simp only [hf] at h
      simp [h]

theorem loadedImage_of_content {β : Type} (c : Codec β) (disk : Disk β) (s : TaskStore)
    (b : β) (hp : s.filePath ≠ "") (hf : disk s.filePath = .content b) :
    loadedImage c disk s = c.unmarshal b := by
  simp [loadedImage, hp, hf]

theorem install_data (s : TaskStore) (img : diskImage) :
    (s.install img).data.keys = img.keys := by
  unfold TaskStore.install diskImage.keys
  cases img.Data <;> rfl

theorem install_nextID (s : TaskStore) (img : diskImage) :
    (s.install img).nextID
      = if img.NextID > 0 then img.NextID else wrapInt64 (maxKey img.keys + 1) := by
  unfold TaskStore.install diskImage.keys
  cases img.Data <;> rfl

/-! ## The key scan of Load -/

theorem scan_ge_start (keys : List Int) (a : Int) :
    a ≤ keys.foldl (fun max id => if id > max then id else max) a := by
  induction keys generalizing a with
  | nil => exact le_refl _
  | cons k keys ih =>
    simp only [List.foldl_cons]
    refine le_trans ?_ (ih _)
    split <;> omega

theorem scan_ge_mem (keys : List Int) (a : Int) :
    ∀ k ∈ keys, k ≤ keys.foldl (fun max id => if id > max then id else max) a := by
  induction keys generalizing a with
  | nil => intro k hk; cases hk
  | cons x keys ih =>
    intro k hk
    simp only [List.foldl_cons]
    rcases List.mem_cons.mp hk with h | h
    · refine le_trans ?_ (scan_ge_start keys _)
      rw [h]
      split <;> omega
    · exact ih _ k h

theorem scan_mem_or_start (keys : List Int) (a : Int) :
    keys.foldl (fun max id => if id > max then id else max) a = a ∨
    keys.foldl (fun max id => if id > max then id else max) a ∈ keys := by
  induction keys generalizing a with
  | nil => exact Or.inl rfl
  | cons x keys ih =>
    simp only [List.foldl_cons]
    rcases ih (if x > a then x else a) with h | h
    · rw [h]
      by_cases hx : x > a
      · simp [hx]
      · simp [hx]
    · exact Or.inr (List.mem_cons_of_mem _ h)

theorem maxKey_nonneg (keys : List Int) : 0 ≤ maxKey keys := scan_ge_start keys 0

theorem maxKey_ge (keys : List Int) : ∀ k ∈ keys, k ≤ maxKey keys := scan_ge_mem keys 0

theorem maxKey_zero_or_mem (keys : List Int) : maxKey keys = 0 ∨ maxKey keys ∈ keys :=
  scan_mem_or_start keys 0

theorem maxKey_succ_no_wrap (keys : List Int) (h : ∀ k ∈ keys, k < maxInt64) :
    wrapInt64 (maxKey keys + 1) = maxKey keys + 1 := by
  have h0 := maxKey_nonneg keys
  have h1 : maxKey keys < maxInt64 := by
    rcases maxKey_zero_or_mem keys with hz | hm
    · rw [hz]; decide
    · exact h _ hm
  apply wrapInt64_of_range
  · unfold minInt64; omega
  · omega

/-- C7 (as amended): for every store with a configured path and every image
`img` decoded from its file, `Load` succeeds and replaces the whole in-memory
state: the map becomes `img.Data` (the empty map when it is missing or null,
whatever was in memory), and `nextID` becomes `img.NextID` when that is positive
and otherwise the `int64` successor of `m`, the largest of 0 and the keys of
`img.Data`: `1 + m` when every key is below `MaxInt64` (so `1 +` the largest key
when that key is not negative), and 1 when the map is empty or has no positive
key. -/
theorem load_installs_image {β : Type} (c : Codec β) (disk : Disk β) (s : TaskStore)
    (b : β) (img : diskImage) (hp : s.filePath ≠ "") (hf : disk s.filePath = .content b)
    (hu : c.unmarshal b = some img) :
    (s.Load c disk).1 = .ok () ∧
    (s.Load c disk).2.data = (match img.Data with | none => ∅ | some d => d) ∧
    (s.Load c disk).2.filePath = s.filePath ∧
    (0 < img.NextID → (s.Load c disk).2.nextID = img.NextID) ∧
    (img.NextID ≤ 0 →
      (s.Load c disk).2.nextID = wrapInt64 (maxKey img.keys + 1) ∧
      0 ≤ maxKey img.keys ∧ (∀ k ∈ img.keys, k ≤ maxKey img.keys) ∧
      (maxKey img.keys = 0 ∨ maxKey img.keys ∈ img.keys)) ∧
    (img.NextID ≤ 0 → (∀ k ∈ img.keys, k < maxInt64) →
      (s.Load c disk).2.nextID = maxKey img.keys + 1) ∧
    (img.NextID ≤ 0 → ∀ m ∈ img.keys, 0 ≤ m → m < maxInt64 → (∀ k ∈ img.keys, k ≤ m) →
      (s.Load c disk).2.nextID = m + 1) ∧
    (img.NextID ≤ 0 → (∀ k ∈ img.keys, k ≤ 0) → (s.Load c disk).2.nextID = 1) := by
  have hl : loadedImage c disk s = some img := by
    rw [loadedImage_of_content c disk s b hp hf, hu]
  rw [load_result c disk s img hl]
  have hn := install_nextID s img
  have hneg : img.NextID ≤ 0 → (s.install img).nextID = wrapInt64 (maxKey img.keys + 1) := by
    intro h
    rw [hn, if_neg (by omega)]
  have hmax : ∀ m ∈ img.keys, 0 ≤ m → (∀ k ∈ img.keys, k ≤ m) → maxKey img.keys = m := by
    intro m hm _ hall
    have h1 := maxKey_ge img.keys m hm
    rcases maxKey_zero_or_mem img.keys with hz | hmem
    · omega
    · have := hall _ hmem
      omega
  refine ⟨rfl, ?_, rfl, ?_, ?_, ?_, ?_, ?_⟩
  · unfold TaskStore.install
    cases img.Data <;> rfl
  · intro h
    show (s.install img).nextID = img.NextID
    rw [hn, if_pos h]
  · intro h
    exact ⟨hneg h, maxKey_nonneg _, maxKey_ge _, maxKey_zero_or_mem _⟩
  · intro h hk
    show (s.install img).nextID = _
    rw [hneg h, maxKey_succ_no_wrap _ hk]
  · intro h m hm h0 hlt hall
    show (s.install img).nextID = _
    have hk : ∀ k ∈ img.keys, k < maxInt64 := fun k hk => lt_of_le_of_lt (hall k hk) hlt
    rw [hneg h, maxKey_succ_no_wrap _ hk, hmax m hm h0 hall]
  · intro h hall
    show (s.install img).nextID = _
    have hz : maxKey img.keys = 0 := by
      rcases maxKey_zero_or_mem img.keys with hz | hmem
      · exact hz
      · have := hall _ hmem
        have := maxKey_nonneg img.keys
        omega
    rw [hneg h, hz]
    decide

/-- C7, instance: loading the image `{next_id: 0, data: {3: ..., 8: ...}}` into a
store that holds task 1 drops task 1, installs keys 3 and 8 and sets the
counter to 9. -/
theorem load_installs_image_witness :
    ((((emptyStore "tasks.json").Create "old").2.Load imageCodec
      (oneFile "tasks.json"
        { NextID := 0,
          Data := some (AList.insert 3 { ID := 3, Title := "c", Done := true }
            (AList.insert 8 { ID := 8, Title := "h", Done := false } ∅)) })).2.data.lookup 1
      = none) ∧
    (((emptyStore "tasks.json").Create "old").2.Load imageCodec
      (oneFile "tasks.json"
        { NextID := 0,
          Data := some (AList.insert 3 { ID := 3, Title := "c", Done := true }
            (AList.insert 8 { ID := 8, Title := "h", Done := false } ∅)) })).2.nextID = 9 :=
  have h := load_installs_image imageCodec
    (oneFile "tasks.json"
      { NextID := 0,
        Data := some (AList.insert 3 { ID := 3, Title := "c", Done := true }
          (AList.insert 8 { ID := 8, Title := "h", Done := false } ∅)) })
    ((emptyStore "tasks.json").Create "old").2
    { NextID := 0,
      Data := some (AList.insert 3 { ID := 3, Title := "c", Done := true }
        (AList.insert 8 { ID := 8, Title := "h", Done := false } ∅)) }
    { NextID := 0,
      Data := some (AList.insert 3 { ID := 3, Title := "c", Done := true }
        (AList.insert 8 { ID := 8, Title := "h", Done := false } ∅)) }
    (by decide) rfl rfl
  ⟨by rw [h.2.1]; decide,
   h.2.2.2.2.2.2.1 (by decide) 8 (by decide) (by decide) (by decide) (by decide)⟩

/-- C7, counterexample: from the image `{next_id: 0, data: {-5: ...}}` `Load`
sets the counter to 1, not to `1 + max(existing ids) = -4`; and from
`{next_id: 0, data: {9223372036854775807: ...}}` it sets it to `MinInt64`. -/
theorem load_counter_not_one_plus_max :
    ((emptyStore "tasks.json").Load imageCodec
      (oneFile "tasks.json"
        { NextID := 0,
          Data := some (AList.insert (-5) { ID := -5, Title := "x", Done := false } ∅) })).2.nextID
      = 1 ∧
    ¬ ((emptyStore "tasks.json").Load imageCodec
      (oneFile "tasks.json"
        { NextID := 0,
          Data := some (AList.insert (-5) { ID := -5, Title := "x", Done := false } ∅) })).2.nextID
      = 1 + (-5) ∧
    ((emptyStore "tasks.json").Load imageCodec
      (oneFile "tasks.json"
        { NextID := 0,
          Data := some (AList.insert 9223372036854775807
            { ID := 9223372036854775807, Title := "x", Done := false } ∅) })).2.nextID
      = -9223372036854775808 := by
  decide

/-! ## Keys stay below the counter -/

theorem wrapInt64_succ_ge (x : Int) (h : x < maxInt64) : x + 1 ≤ wrapInt64 (x + 1) := by
  unfold wrapInt64
  unfold maxInt64 at h
  omega

theorem create_keeps_keysBelow (s : TaskStore) (title : String)
    (hk : keysBelowCounter s) (h : s.nextID < maxInt64) :
    keysBelowCounter (s.Create title).2 := by
  intro k hmem
  have hn : s.nextID + 1 ≤ (s.Create title).2.nextID := wrapInt64_succ_ge s.nextID h
  have hmem2 : k ∈ s.data.insert s.nextID { ID := s.nextID, Title := title, Done := false } :=
    AList.mem_keys.mpr hmem
  rcases (AList.mem_insert s.data).mp hmem2 with h1 | h1
  · omega
  · have := hk k (AList.mem_keys.mp h1)
    omega

theorem install_keeps_keysBelow (s : TaskStore) (img : diskImage) (h : consistentImage img) :
    keysBelowCounter (s.install img) := by
  intro k hmem
  rw [install_data] at hmem
  rw [install_nextID]
  unfold consistentImage at h
  by_cases hpos : img.NextID > 0
  · rw [if_pos hpos] at h ⊢
    exact h k hmem
  · rw [if_neg hpos] at h ⊢
    rw [maxKey_succ_no_wrap _ h]
    have := maxKey_ge img.keys k hmem
    omega

theorem step_keeps_keysBelow {β : Type} (c : Codec β) (s : TaskStore) (op : Op β)
    (hk : keysBelowCounter s) (h : keepsKeysBelow c s op) :
    keysBelowCounter (step c s op) := by
  cases op with
  | create title => exact create_keeps_keysBelow s title hk h
  | list => exact hk
  | get id =>
    simp only [step, TaskStore.Get]
    split <;> exact hk
  | update t =>
    simp only [step, TaskStore.Update]
    split
    · exact hk
    · rename_i u hu
      intro k hmem
      have hmem2 : k ∈ s.data.insert t.ID t := AList.mem_keys.mpr hmem
      rcases (AList.mem_insert s.data).mp hmem2 with h1 | h1
      · rw [h1]
        exact hk _ (AList.mem_keys.mp (AList.lookup_isSome.mp (by simp [hu])))
      · exact hk k (AList.mem_keys.mp h1)
  | delete id =>
    simp only [step, TaskStore.Delete]
    split
    · exact hk
    · intro k hmem
      have hmem2 : k ∈ s.data.erase id := AList.mem_keys.mpr hmem
      exact hk k (AList.mem_keys.mp (AList.mem_erase.mp hmem2).2)
  | save disk =>
    have h : step c s (.save disk) = s := save_store c disk s
    rw [h]
    exact hk
  | load disk =>
    have he : step c s (.load disk) = (s.Load c disk).2 := rfl
    rw [he, load_eq]
    cases hl : loadedImage c disk s with
    | none => exact hk
    | some img => exact install_keeps_keysBelow s img (h img (by rw [hl]; rfl))

theorem run_keeps_keysBelow {β : Type} (c : Codec β) (ops : List (Op β)) (s : TaskStore)
    (hk : keysBelowCounter s) (h : admissible c s ops) :
    keysBelowCounter (run c s ops) := by
  induction ops generalizing s with
  | nil => exact hk
  | cons op ops ih =>
    rw [run_cons]
    exact ih _ (step_keeps_keysBelow c s op hk h.1) h.2

/-- C6 (as amended): in every store state reachable from construction by a
sequence of calls in which each `Create` runs with the counter below
`MaxInt64` and each `Load` that installs an image (the one of the constructor
included) installs one whose `next_id` is positive and above all its keys, or
not positive with all keys below `MaxInt64`, every key of the map is strictly
less than `nextID`. `Update`, `Delete`, `Get`, `List` and `Save` are
unrestricted. -/
theorem keys_below_counter_reachable {β : Type} (c : Codec β) (disk : Disk β)
    (path : String) (ops : List (Op β))
    (h0 : keepsKeysBelow c (emptyStore path) (.load disk))
    (h : admissible c (NewTaskStore c disk path) ops) :
    keysBelowCounter (run c (NewTaskStore c disk path) ops) := by
  have hempty : keysBelowCounter (emptyStore path) := by
    intro k hmem
    simp [emptyStore] at hmem
  have hnew : keysBelowCounter (NewTaskStore c disk path) :=
    step_keeps_keysBelow c (emptyStore path) (.load disk) hempty h0
  exact run_keeps_keysBelow c ops _ hnew h

/-- C6, instance: a store constructed from the image `{next_id: 4, data: {3: ...}}`,
then `Create`, `Update 3`, `Delete 4`, `Load` of `{next_id: 0, data: {7: ...}}`
and `Create` has all keys below its counter, which is 9. -/
theorem keys_below_counter_reachable_witness :
    keysBelowCounter
      (run imageCodec
        (NewTaskStore imageCodec
          (oneFile "tasks.json"
            { NextID := 4, Data := some (AList.insert 3 { ID := 3, Title := "c", Done := false } ∅) })
          "tasks.json")
        [.create "d", .update { ID := 3, Title := "e", Done := true }, .delete 4,
         .load (oneFile "tasks.json"
            { NextID := 0, Data := some (AList.insert 7 { ID := 7, Title := "g", Done := false } ∅) }),
         .create "h"]) ∧
    (run imageCodec
        (NewTaskStore imageCodec
          (oneFile "tasks.json"
            { NextID := 4, Data := some (AList.insert 3 { ID := 3, Title := "c", Done := false } ∅) })
          "tasks.json")
        [.create "d", .update { ID := 3, Title := "e", Done := true }, .delete 4,
         .load (oneFile "tasks.json"
            { NextID := 0, Data := some (AList.insert 7 { ID := 7, Title := "g", Done := false } ∅) }),
         .create "h"]).nextID = 9 :=
  ⟨keys_below_counter_reachable imageCodec
      (oneFile "tasks.json"
        { NextID := 4, Data := some (AList.insert 3 { ID := 3, Title := "c", Done := false } ∅) })
      "tasks.json"
      [.create "d", .update { ID := 3, Title := "e", Done := true }, .delete 4,
       .load (oneFile "tasks.json"
          { NextID := 0, Data := some (AList.insert 7 { ID := 7, Title := "g", Done := false } ∅) }),
       .create "h"]
      (by decide) (by decide),
   by decide⟩

/-- C6, counterexample: a store constructed from the parseable image
`{next_id: 1, data: {5: ...}}` holds key 5 with counter 1; and a store
constructed from `{next_id: 9223372036854775807}` holds, after one `Create`,
key `MaxInt64` with counter `MinInt64`. -/
theorem keys_not_below_counter :
    ¬ keysBelowCounter
      (NewTaskStore imageCodec
        (oneFile "tasks.json"
          { NextID := 1, Data := some (AList.insert 5 { ID := 5, Title := "x", Done := false } ∅) })
        "tasks.json") ∧
    ¬ keysBelowCounter
      (run imageCodec
        (NewTaskStore imageCodec
          (oneFile "tasks.json" { NextID := 9223372036854775807, Data := none })
          "tasks.json")
        [.create "a"]) := by
  decide

/-! ## The counter -/

theorem step_counter_of_frame {β : Type} (c : Codec β) (s : TaskStore) (op : Op β)
    (hc : ∀ title, op ≠ .create title) (hl : ∀ disk, op ≠ .load disk) :
    (step c s op).nextID = s.nextID := by
  cases op with
  | create title => exact absurd rfl (hc title)
  | list => rfl
  | get id =>
    simp only [step, TaskStore.Get]
    split <;> rfl
  | update t =>
    simp only [step, TaskStore.Update]
    split <;> rfl
  | delete id =>
    simp only [step, TaskStore.Delete]
    split <;> rfl
  | save disk =>
    have h : step c s (.save disk) = s := save_store c disk s
    rw [h]
  | load disk => exact absurd rfl (hl disk)

/-- C9 (as amended): the counter of a store is 1 when the constructor installs
no image, and it is never decreased by `Create` while it is below `MaxInt64`,
by `List`, `Get`, `Update`, `Delete` or `Save`, by a `Load` that installs no
image (no path, no file, a read or decode failure), or by a `Load` installing an
image whose `next_id` is positive and at least the current counter. -/
theorem counter_never_decreases {β : Type} (c : Codec β) :
    (∀ (disk : Disk β) (path : String), loadedImage c disk (emptyStore path) = none →
      (NewTaskStore c disk path).nextID = 1) ∧
    (∀ (s : TaskStore) (op : Op β), keepsCounter c s op → s.nextID ≤ (step c s op).nextID) := by
  constructor
  · intro disk path h
    unfold NewTaskStore
    rw [load_eq, h]
    rfl
  · intro s op h
    by_cases hc : ∃ title, op = .create title
    · obtain ⟨title, rfl⟩ := hc
      have h1 : s.nextID < maxInt64 := h
      have := wrapInt64_succ_ge s.nextID h1
      show s.nextID ≤ wrapInt64 (s.nextID + 1)
      omega
    · by_cases hl : ∃ disk, op = .load disk
      · obtain ⟨disk, rfl⟩ := hl
        have he : step c s (.load disk) = (s.Load c disk).2 := rfl
        rw [he, load_eq]
        cases hi : loadedImage c disk s with
        | none => exact le_refl _
        | some img =>
          obtain ⟨hpos, hle⟩ := h img (by rw [hi]; rfl)
          show s.nextID ≤ (s.install img).nextID
          rw [install_nextID, if_pos hpos]
          exact hle
      · rw [step_counter_of_frame c s op (fun t ht => hc ⟨t, ht⟩) (fun d hd => hl ⟨d, hd⟩)]

/-- C9, instance: on the store with counter 3, `Load` of an image with
`next_id = 5` leaves the counter at 5, and `Create` moves it from 3 to 4. -/
theorem counter_never_decreases_witness :
    (step imageCodec (((emptyStore "tasks.json").Create "a").2.Create "b").2
      (.load (oneFile "tasks.json" { NextID := 5, Data := none }))).nextID = 5 ∧
    (3 : Int) ≤ (step imageCodec (((emptyStore "tasks.json").Create "a").2.Create "b").2
      (.load (oneFile "tasks.json" { NextID := 5, Data := none }))).nextID ∧
    (3 : Int) ≤ (step imageCodec (((emptyStore "tasks.json").Create "a").2.Create "b").2
      (.create "c")).nextID :=
  ⟨by decide,
   (counter_never_decreases imageCodec).2 (((emptyStore "tasks.json").Create "a").2.Create "b").2
      (.load (oneFile "tasks.json" { NextID := 5, Data := none })) (by decide),
   (counter_never_decreases imageCodec).2 (((emptyStore "tasks.json").Create "a").2.Create "b").2
      (.create "c") (by decide)⟩

/-- C9, counterexample: on the store with counter 3, `Load` of the parseable
image `{next_id: 1}` succeeds and lowers the counter to 1; and on a store
constructed from `{next_id: 9223372036854775807}` `Create` lowers the counter
from `MaxInt64` to `MinInt64`. -/
theorem counter_decreases :
    (((emptyStore "tasks.json").Create "a").2.Create "b").2.nextID = 3 ∧
    ((((emptyStore "tasks.json").Create "a").2.Create "b").2.Load imageCodec
      (oneFile "tasks.json" { NextID := 1, Data := none })).2.nextID = 1 ∧
    ¬ (((emptyStore "tasks.json").Create "a").2.Create "b").2.nextID ≤
      ((((emptyStore "tasks.json").Create "a").2.Create "b").2.Load imageCodec
        (oneFile "tasks.json" { NextID := 1, Data := none })).2.nextID ∧
    ¬ (NewTaskStore imageCodec
        (oneFile "tasks.json" { NextID := 9223372036854775807, Data := none })
        "tasks.json").nextID ≤
      ((NewTaskStore imageCodec
        (oneFile "tasks.json" { NextID := 9223372036854775807, Data := none })
        "tasks.json").Create "a").2.nextID := by
  decide

/-! ## Load without a file -/

/-- C10 (as amended): for every store state with a configured file path, when
the file does not exist `Load` succeeds and leaves the store exactly as it was;
called by the constructor, that is the initial empty state (empty map,
`nextID = 1`). -/
theorem load_missing_file {β : Type} (c : Codec β) (disk : Disk β) :
    (∀ s : TaskStore, s.filePath ≠ "" → disk s.filePath = .absent →
      s.Load c disk = (.ok (), s)) ∧
    (∀ path : String, path ≠ "" → disk path = .absent →
      (NewTaskStore c disk path).data = ∅ ∧ (NewTaskStore c disk path).nextID = 1 ∧
      (NewTaskStore c disk path).filePath = path) := by
  have key : ∀ s : TaskStore, s.filePath ≠ "" → disk s.filePath = .absent →
      s.Load c disk = (.ok (), s) := by
    intro s hp hf
    simp [TaskStore.Load, hp, hf]
  refine ⟨key, ?_⟩
  intro path hp hf
  unfold NewTaskStore
  rw [key (emptyStore path) hp hf]
  exact ⟨rfl, rfl, rfl⟩

/-- C10, instance: with no file on disk, `Load` on the store holding task 1
succeeds and returns that same store, and `NewTaskStore "tasks.json"` has
counter 1. -/
theorem load_missing_file_witness :
    ((emptyStore "tasks.json").Create "a").2.Load imageCodec noFiles
      = (.ok (), ((emptyStore "tasks.json").Create "a").2) ∧
    (NewTaskStore imageCodec noFiles "tasks.json").nextID = 1 :=
  ⟨(load_missing_file imageCodec noFiles).1 ((emptyStore "tasks.json").Create "a").2
      (by decide) rfl,
   ((load_missing_file imageCodec noFiles).2 "tasks.json" (by decide) rfl).2.1⟩

/-- C10, counterexample: with no file on disk, `Load` on the store holding
task 1 with counter 2 succeeds and the store still holds task 1 with counter 2:
it is not the initial empty state. -/
theorem load_missing_file_keeps_tasks :
    (((emptyStore "tasks.json").Create "a").2.Load imageCodec noFiles).1 = .ok () ∧
    (((emptyStore "tasks.json").Create "a").2.Load imageCodec noFiles).2.data.lookup 1
      = some { ID := 1, Title := "a", Done := false } ∧
    (((emptyStore "tasks.json").Create "a").2.Load imageCodec noFiles).2.nextID = 2 ∧
    ¬ (((emptyStore "tasks.json").Create "a").2.Load imageCodec noFiles).2.data.keys = [] ∧
    ¬ (((emptyStore "tasks.json").Create "a").2.Load imageCodec noFiles).2.nextID = 1 := by
  refine ⟨rfl, ?_, ?_, ?_, ?_⟩ <;> decide

/-! ## Save, then a new store on the same path -/

theorem step_filePath {β : Type} (c : Codec β) (s : TaskStore) (op : Op β) :
    (step c s op).filePath = s.filePath := by
  cases op with
  | create title => rfl
  | list => rfl
  | get id =>
    simp only [step, TaskStore.Get]
    split <;> rfl
  | update t =>
    simp only [step, TaskStore.Update]
    split <;> rfl
  | delete id =>
    simp only [step, TaskStore.Delete]
    split <;> rfl
  | save disk =>
    have h : step c s (.save disk) = s := save_store c disk s
    rw [h]
  | load disk =>
    have he : step c s (.load disk) = (s.Load c disk).2 := rfl
    rw [he, load_eq]
    cases loadedImage c disk s <;> rfl

/-- Without `Load` calls, while the number of `Create` calls keeps the counter
within `int64`, a store with a positive counter above its keys stays so. -/
theorem run_counter_range {β : Type} (c : Codec β) (ops : List (Op β)) (s : TaskStore)
    (hl : ∀ op ∈ ops, ∀ disk, op ≠ Op.load disk)
    (h1 : 1 ≤ s.nextID) (hk : keysBelowCounter s)
    (hc : s.nextID + countCreates ops ≤ maxInt64) :
    1 ≤ (run c s ops).nextID ∧ (run c s ops).nextID ≤ maxInt64 ∧
    keysBelowCounter (run c s ops) ∧ (run c s ops).filePath = s.filePath := by
  induction ops generalizing s with
  | nil =>
    simp only [countCreates] at hc
    exact ⟨h1, by simpa using hc, hk, rfl⟩
  | cons op ops ih =>
    rw [run_cons]
    have hl2 : ∀ o ∈ ops, ∀ disk, o ≠ Op.load disk :=
      fun o ho => hl o (List.mem_cons_of_mem _ ho)
    have hfp := step_filePath c s op
    by_cases hcr : ∃ title, op = .create title
    · obtain ⟨title, rfl⟩ := hcr
      have hcc : countCreates (Op.create title :: ops) = 1 + countCreates ops := rfl
      rw [hcc] at hc
      push_cast at hc
      have hlt : s.nextID < maxInt64 := by omega
      have hmin : minInt64 ≤ s.nextID := by unfold minInt64; omega
      have hn : (step c s (.create title)).nextID = s.nextID + 1 :=
        create_nextID_of_lt s title hmin hlt
      have := ih (step c s (.create title)) hl2 (by rw [hn]; omega)
        (create_keeps_keysBelow s title hk hlt) (by rw [hn]; omega)
      rw [hfp] at this
      exact this
    · have hnc : ∀ title, op ≠ .create title := fun t ht => hcr ⟨t, ht⟩
      have hnl : ∀ disk, op ≠ .load disk := hl op (List.mem_cons_self _ _)
      have hn := step_counter_of_frame c s op hnc hnl
      have hcc : countCreates (op :: ops) = countCreates ops := by
        cases op <;> first | exact absurd rfl (hnc _) | simp [countCreates]
      rw [hcc] at hc
      have hkeep : keepsKeysBelow c s op := by
        cases op <;> first | exact absurd rfl (hnc _) | exact absurd rfl (hnl _) | trivial
      have := ih (step c s op) hl2 (by rw [hn]; exact h1)
        (step_keeps_keysBelow c s op hk hkeep) (by rw [hn]; exact hc)
      rw [hfp] at this
      exact this

theorem save_ok_content {β : Type} (c : Codec β) (disk : Disk β) (s : TaskStore)
    (hp : s.filePath ≠ "") (h : (s.Save c disk).1 = .ok ()) :
    ∃ b, c.marshal { NextID := s.nextID, Data := some s.data } = some b ∧
      (s.Save c disk).2.2 s.filePath = .content b := by
  unfold TaskStore.Save at h ⊢
  simp only [hp, if_false] at h ⊢
  cases hm : c.marshal { NextID := s.nextID, Data := some s.data } with
  | none => simp [hm] at h
  | some b =>
    refine ⟨b, rfl, ?_⟩
    cases hw : writeFile disk s.filePath b with
    | none => simp [hm, hw] at h
    | some d =>
      simp only [hw]
      unfold writeFile at hw
      cases hd : disk s.filePath with
      | denied => simp [hd] at hw
      | absent =>
        simp only [hd, Option.some.injEq] at hw
        rw [← hw]
        simp
      | content b0 =>
        simp only [hd, Option.some.injEq] at hw
        rw [← hw]
        simp

/-- C8 (as amended): let the JSON codec decode what it encoded, and let a
store on a non-empty path start empty and go through `Create`, `Update`,
`Delete` (and `Get`, `List`, `Save`) calls, at most `2^63 - 2` of them `Create`.
If `Save` then succeeds, a new store constructed on the same path over the disk
`Save` left has the same task map (same ids, titles and done flags) and the
same `nextID`, which is at least 1 + every id in the map. -/
theorem save_then_new_store {β : Type} (c : Codec β)
    (hrt : ∀ img b, c.marshal img = some b → c.unmarshal b = some img)
    (disk0 disk : Disk β) (path : String) (ops : List (Op β))
    (hp : path ≠ "")
    (h0 : loadedImage c disk0 (emptyStore path) = none)
    (hl : ∀ op ∈ ops, ∀ d, op ≠ Op.load d)
    (hc : countCreates ops ≤ 9223372036854775806)
    (hs : ((run c (NewTaskStore c disk0 path) ops).Save c disk).1 = .ok ()) :
    (NewTaskStore c ((run c (NewTaskStore c disk0 path) ops).Save c disk).2.2 path).data
      = (run c (NewTaskStore c disk0 path) ops).data ∧
    (NewTaskStore c ((run c (NewTaskStore c disk0 path) ops).Save c disk).2.2 path).nextID
      = (run c (NewTaskStore c disk0 path) ops).nextID ∧
    (∀ k ∈ (NewTaskStore c ((run c (NewTaskStore c disk0 path) ops).Save c disk).2.2
        path).data.keys,
      k + 1 ≤ (NewTaskStore c ((run c (NewTaskStore c disk0 path) ops).Save c disk).2.2
        path).nextID) := by
  have hnew : NewTaskStore c disk0 path = emptyStore path := by
    unfold NewTaskStore
    rw [load_eq, h0]
  rw [hnew] at hs ⊢
  have hk0 : keysBelowCounter (emptyStore path) := by
    intro k hmem
    simp [emptyStore] at hmem
  have hc0 : (emptyStore path).nextID + countCreates ops ≤ maxInt64 := by
    have : ((countCreates ops : Nat) : Int) ≤ 9223372036854775806 := by exact_mod_cast hc
    simp only [emptyStore, maxInt64]
    omega
  obtain ⟨r1, _, rk, rp⟩ := run_counter_range c ops (emptyStore path) hl (le_refl _) hk0 hc0
  generalize run c (emptyStore path) ops = s at hs r1 rk rp ⊢
  have hsp : s.filePath = path := rp
  have hsp2 : s.filePath ≠ "" := by rw [hsp]; exact hp
  obtain ⟨b, hm, hd⟩ := save_ok_content c disk s hsp2 hs
  rw [hsp] at hd
  have hli : loadedImage c (s.Save c disk).2.2 (emptyStore path)
      = some { NextID := s.nextID, Data := some s.data } := by
    have hep : (emptyStore path).filePath ≠ "" := hp
    rw [loadedImage_of_content c _ (emptyStore path) b hep hd]
    exact hrt _ _ hm
  have hload : NewTaskStore c (s.Save c disk).2.2 path
      = (emptyStore path).install { NextID := s.nextID, Data := some s.data } := by
    unfold NewTaskStore
    rw [load_eq, hli]
  rw [hload]
  have hn : ((emptyStore path).install { NextID := s.nextID, Data := some s.data }).nextID
      = s.nextID := by
    rw [install_nextID]
    exact if_pos (by show s.nextID > 0; omega)
  refine ⟨rfl, hn, ?_⟩
  intro k hmem
  rw [hn]
  have := rk k hmem
  omega

/-- C8, instance (the scenario of `TestPersistenceSaveLoad`): a store on
"tasks.json" with no file yet, `Create "Persistante"`, `Save`; the new store on
the same path holds exactly task 1 with that title and has counter 2. -/
theorem save_then_new_store_witness :
    (NewTaskStore imageCodec
        ((run imageCodec (NewTaskStore imageCodec noFiles "tasks.json")
          [.create "Persistante"]).Save imageCodec noFiles).2.2 "tasks.json").List.1
      = [{ ID := 1, Title := "Persistante", Done := false }] ∧
    (NewTaskStore imageCodec
        ((run imageCodec (NewTaskStore imageCodec noFiles "tasks.json")
          [.create "Persistante"]).Save imageCodec noFiles).2.2 "tasks.json").data
      = (run imageCodec (NewTaskStore imageCodec noFiles "tasks.json")
          [.create "Persistante"]).data ∧
    (NewTaskStore imageCodec
        ((run imageCodec (NewTaskStore imageCodec noFiles "tasks.json")
          [.create "Persistante"]).Save imageCodec noFiles).2.2 "tasks.json").nextID = 2 :=
  have h := save_then_new_store imageCodec (fun _ _ e => by cases e; rfl) noFiles noFiles
    "tasks.json" [.create "Persistante"] (by decide) rfl
    (by intro op hop d; rw [List.mem_singleton.mp hop]; exact Op.noConfusion)
    (by decide) rfl
  ⟨by decide, h.1, h.2.1.trans (by decide)⟩

/-- C8, counterexample: after `2^63 - 2` rounds of `Create` and `Delete` and one
more `Create`, the store holds the single id `MaxInt64` and its counter has
wrapped to `MinInt64`; `Save` succeeds, and the new store on the same path has
counter `MinInt64`, below `1 + MaxInt64`. -/
theorem save_then_new_store_wrapped :
    ((run imageCodec (NewTaskStore imageCodec noFiles "tasks.json")
        (churn 1 9223372036854775806 ++ [.create "p"])).Save imageCodec noFiles).1 = .ok () ∧
    ¬ (∀ k ∈ (NewTaskStore imageCodec
          ((run imageCodec (NewTaskStore imageCodec noFiles "tasks.json")
            (churn 1 9223372036854775806 ++ [.create "p"])).Save imageCodec noFiles).2.2
          "tasks.json").data.keys,
        k + 1 ≤ (NewTaskStore imageCodec
          ((run imageCodec (NewTaskStore imageCodec noFiles "tasks.json")
            (churn 1 9223372036854775806 ++ [.create "p"])).Save imageCodec noFiles).2.2
          "tasks.json").nextID) := by
  have hnew : NewTaskStore imageCodec noFiles "tasks.json" = emptyStore "tasks.json" := rfl
  have hrun := churn_run imageCodec 9223372036854775806 (emptyStore "tasks.json") rfl
    (by decide) (by decide)
  have hrun2 : run imageCodec (emptyStore "tasks.json") (churn 1 9223372036854775806)
      = { data := ∅, nextID := 9223372036854775807, filePath := "tasks.json" } := hrun
  rw [hnew, run_append, hrun2]
  constructor
  · rfl
  · decide

/-! ## Load failures -/

theorem load_of_denied {β : Type} (c : Codec β) (disk : Disk β) (s : TaskStore)
    (hp : s.filePath ≠ "") (hf : disk s.filePath = .denied) :
    s.Load c disk = (.error .readError, s) := by
  simp [TaskStore.Load, hp, hf]

theorem load_of_malformed {β : Type} (c : Codec β) (disk : Disk β) (s : TaskStore) (b : β)
    (hp : s.filePath ≠ "") (hf : disk s.filePath = .content b) (hu : c.unmarshal b = none) :
    s.Load c disk = (.error .unmarshalError, s) := by
  simp [TaskStore.Load, hp, hf, hu]

/-- C11: for every configured path whose file cannot be read or does not
parse, an explicit `Load` returns an error and leaves the store (map, counter
and path) exactly as it was, while `NewTaskStore` on that path returns a store,
the empty one with `nextID = 1`. -/
theorem load_failure_surfaced_and_absorbed {β : Type} (c : Codec β) (disk : Disk β) :
    (∀ s : TaskStore, s.filePath ≠ "" →
      (disk s.filePath = .denied ∨
        ∃ b, disk s.filePath = .content b ∧ c.unmarshal b = none) →
      (∃ e, (s.Load c disk).1 = .error e) ∧ (s.Load c disk).2 = s) ∧
    (∀ path : String, path ≠ "" →
      (disk path = .denied ∨ ∃ b, disk path = .content b ∧ c.unmarshal b = none) →
      NewTaskStore c disk path = emptyStore path ∧
      (NewTaskStore c disk path).data = ∅ ∧ (NewTaskStore c disk path).nextID = 1) := by
  have key : ∀ s : TaskStore, s.filePath ≠ "" →
      (disk s.filePath = .denied ∨
        ∃ b, disk s.filePath = .content b ∧ c.unmarshal b = none) →
      (∃ e, (s.Load c disk).1 = .error e) ∧ (s.Load c disk).2 = s := by
    intro s hp hf
    rcases hf with hd | ⟨b, hb, hu⟩
    · rw [load_of_denied c disk s hp hd]
      exact ⟨⟨_, rfl⟩, rfl⟩
    · rw [load_of_malformed c disk s b hp hb hu]
      exact ⟨⟨_, rfl⟩, rfl⟩
  refine ⟨key, ?_⟩
  intro path hp hf
  have h := (key (emptyStore path) hp hf).2
  have hn : NewTaskStore c disk path = emptyStore path := h
  rw [hn]
  exact ⟨rfl, rfl, rfl⟩

/-- C11, instance: with a file at "tasks.json" that does not parse, `Load` on
the store holding task 1 returns the decode error and keeps the store, and
`NewTaskStore "tasks.json"` is the empty store with counter 1; the same with a
directory at that path. -/
theorem load_failure_surfaced_and_absorbed_witness :
    (((emptyStore "tasks.json").Create "a").2.Load partialCodec
        (malformedFile "tasks.json")).2 = ((emptyStore "tasks.json").Create "a").2 ∧
    (∃ e, (((emptyStore "tasks.json").Create "a").2.Load partialCodec
        (malformedFile "tasks.json")).1 = .error e) ∧
    (NewTaskStore partialCodec (malformedFile "tasks.json") "tasks.json").nextID = 1 ∧
    (NewTaskStore imageCodec (directoryAt "tasks.json") "tasks.json").nextID = 1 :=
  have h := (load_failure_surfaced_and_absorbed partialCodec (malformedFile "tasks.json")).1
    ((emptyStore "tasks.json").Create "a").2 (by decide) (Or.inr ⟨none, rfl, rfl⟩)
  ⟨h.2, h.1,
   ((load_failure_surfaced_and_absorbed partialCodec (malformedFile "tasks.json")).2
      "tasks.json" (by decide) (Or.inr ⟨none, rfl, rfl⟩)).2.2,
   ((load_failure_surfaced_and_absorbed imageCodec (directoryAt "tasks.json")).2
      "tasks.json" (by decide) (Or.inl rfl)).2.2⟩

/-! ## List -/

theorem lookup_keys_eq (l : List (Sigma (fun _ : Int => Task))) (h : l.NodupKeys) :
    l.keys.map (fun k => List.dlookup k l) = l.map (fun e => some e.2) := by
  induction l with
  | nil => rfl
  | cons e l ih =>
    obtain ⟨k, t⟩ := e
    have hnd := List.nodupKeys_cons.mp h
    simp only [List.keys_cons, List.map_cons, List.dlookup_cons_eq]
    congr 1
    rw [← ih hnd.2]
    apply List.map_congr_left
    intro j hj
    have hne : j ≠ k := fun hjk => hnd.1 (hjk ▸ hj)
    exact List.dlookup_cons_ne l ⟨k, t⟩ hne

/-- C16: `List` returns exactly the tasks stored in the map: going through the
keys of the map, its result holds for each key the task stored under it, once
and in that place, and nothing else; so its length is the number of entries
and a task is in the result exactly when it is stored under some key. `List`
leaves the store unchanged, and on a fresh store after one `Create` the result
has length 1. -/
theorem list_spec (s : TaskStore) :
    s.List.1.map some = s.data.keys.map (fun k => s.data.lookup k) ∧
    s.List.1.length = s.data.keys.length ∧
    s.data.keys.Nodup ∧
    (∀ t : Task, t ∈ s.List.1 ↔ ∃ k, s.data.lookup k = some t) ∧
    s.List.2 = s ∧
    (∀ (path title : String), ((emptyStore path).Create title).2.List.1.length = 1) := by
  have h1 : s.List.1.map some = s.data.keys.map (fun k => s.data.lookup k) := by
    have := lookup_keys_eq s.data.entries s.data.nodupKeys
    simp only [TaskStore.List, List.map_map]
    exact this.symm
  refine ⟨h1, ?_, s.data.keys_nodup, ?_, rfl, ?_⟩
  · have := congrArg List.length h1
    simpa using this
  · intro t
    constructor
    · intro ht
      have hm : some t ∈ s.List.1.map some := List.mem_map_of_mem _ ht
      rw [h1] at hm
      obtain ⟨k, _, hk⟩ := List.mem_map.mp hm
      exact ⟨k, hk⟩
    · rintro ⟨k, hk⟩
      have hmem : k ∈ s.data.keys :=
        AList.mem_keys.mp (AList.lookup_isSome.mp (by simp [hk]))
      have hm : some t ∈ s.data.keys.map (fun k => s.data.lookup k) :=
        List.mem_map.mpr ⟨k, hmem, hk⟩
      rw [← h1] at hm
      obtain ⟨u, hu, hut⟩ := List.mem_map.mp hm
      cases hut
      exact hu
  · intro path title
    simp [TaskStore.List, TaskStore.Create, emptyStore, AList.insert_entries]

/-- C16, instance: on a store constructed with no file path, after `Create "a"`
and `Create "b"`, `List` has length 2 and holds both tasks. -/
theorem list_spec_witness :
    (((NewTaskStore imageCodec noFiles "").Create "a").2.Create "b").2.List.1.length = 2 ∧
    ({ ID := 1, Title := "a", Done := false } : Task)
      ∈ (((NewTaskStore imageCodec noFiles "").Create "a").2.Create "b").2.List.1 ∧
    ({ ID := 2, Title := "b", Done := false } : Task)
      ∈ (((NewTaskStore imageCodec noFiles "").Create "a").2.Create "b").2.List.1 :=
  have h := list_spec (((NewTaskStore imageCodec noFiles "").Create "a").2.Create "b").2
  ⟨h.2.1.trans (by decide), (h.2.2.2.1 _).mpr ⟨1, by decide⟩, (h.2.2.2.1 _).mpr ⟨2, by decide⟩⟩

/-! ## Trimming -/

theorem dropWhile_head_not {α : Type} (p : α → Bool) (l : List α) (a : α) (t : List α)
    (h : l.dropWhile p = a :: t) : p a = false := by
  induction l with
  | nil => simp at h
  | cons x l ih =>
    by_cases hx : p x = true
    · rw [List.dropWhile_cons_of_pos hx] at h
      exact ih h
    · rw [List.dropWhile_cons_of_neg hx] at h
      cases h
      simpa using hx

theorem trim_chars_idempotent (l : List Char) :
    (((l.dropWhile isSpace).rdropWhile isSpace).dropWhile isSpace).rdropWhile isSpace
      = (l.dropWhile isSpace).rdropWhile isSpace := by
  have hfix : ((l.dropWhile isSpace).rdropWhile isSpace).dropWhile isSpace
      = (l.dropWhile isSpace).rdropWhile isSpace := by
    cases hr : (l.dropWhile isSpace).rdropWhile isSpace with
    | nil => rfl
    | cons a r =>
      obtain ⟨t, ht⟩ : (l.dropWhile isSpace).rdropWhile isSpace <+: l.dropWhile isSpace :=
        List.rdropWhile_prefix isSpace _
      rw [hr] at ht
      have ha : isSpace a = false :=
        dropWhile_head_not isSpace l a (r ++ t) (by rw [← ht]; rfl)
      exact List.dropWhile_cons_of_neg (by simp [ha])
  rw [hfix]
  exact List.rdropWhile_idempotent isSpace _

theorem trimSpace_idempotent (x : String) : TrimSpace (TrimSpace x) = TrimSpace x := by
  unfold TrimSpace
  simp only [trim_chars_idempotent]

theorem goodTitle_trimSpace (x : String) (h : TrimSpace x ≠ "") : goodTitle (TrimSpace x) :=
  ⟨h, trimSpace_idempotent x⟩

/-! ## The handlers, case by case -/

theorem persist_store {β : Type} (c : Codec β) (disk : Disk β) (s : TaskStore) (r : Response) :
    (persist c disk s r).store = s := by
  unfold persist
  have h := save_store c disk s
  rcases hs : s.Save c disk with ⟨res, s', d'⟩
  rw [hs] at h
  cases res <;> exact h

theorem persist_saved {β : Type} (c : Codec β) (disk : Disk β) (s : TaskStore) (r : Response) :
    (persist c disk s r).saved = true := by
  unfold persist
  rcases s.Save c disk with ⟨res, s', d'⟩
  cases res <;> rfl

theorem persist_disk {β : Type} (c : Codec β) (disk : Disk β) (s : TaskStore) (r : Response) :
    (persist c disk s r).disk = (s.Save c disk).2.2 := by
  unfold persist
  rcases s.Save c disk with ⟨res, s', d'⟩
  cases res <;> rfl

theorem persist_response_ok {β : Type} (c : Codec β) (disk : Disk β) (s : TaskStore)
    (r : Response) (h : (s.Save c disk).1 = .ok ()) : (persist c disk s r).response = r := by
  unfold persist
  rcases hs : s.Save c disk with ⟨res, s', d'⟩
  rw [hs] at h
  cases res with
  | error e => cases h
  | ok u => rfl

theorem persist_response_error {β : Type} (c : Codec β) (disk : Disk β) (s : TaskStore)
    (r : Response) (e : StoreError) (h : (s.Save c disk).1 = .error e) :
    (persist c disk s r).response = ⟨500, .text "failed to persist"⟩ := by
  unfold persist
  rcases hs : s.Save c disk with ⟨res, s', d'⟩
  rw [hs] at h
  cases res with
  | error e => rfl
  | ok u => cases h

theorem save_no_path {β : Type} (c : Codec β) (disk : Disk β) (s : TaskStore)
    (h : s.filePath = "") : s.Save c disk = (.ok (), s, disk) := by
  simp [TaskStore.Save, h]

theorem handleCreateTask_no_body {β : Type} (c : Codec β) (disk : Disk β) (s : TaskStore) :
    handleCreateTask c disk s none
      = { response := ⟨400, .text "invalid body (need non-empty title)"⟩,
          store := s, disk := disk, saved := false } := rfl

theorem handleCreateTask_blank {β : Type} (c : Codec β) (disk : Disk β) (s : TaskStore)
    (inp : createTaskInput) (h : TrimSpace inp.Title = "") :
    handleCreateTask c disk s (some inp)
      = { response := ⟨400, .text "invalid body (need non-empty title)"⟩,
          store := s, disk := disk, saved := false } := by
  simp [handleCreateTask, h]

theorem handleCreateTask_valid {β : Type} (c : Codec β) (disk : Disk β) (s : TaskStore)
    (inp : createTaskInput) (h : TrimSpace inp.Title ≠ "") :
    handleCreateTask c disk s (some inp)
      = persist c disk (s.Create (TrimSpace inp.Title)).2
          ⟨201, .task (s.Create (TrimSpace inp.Title)).1⟩ := by
  simp [handleCreateTask, h]

theorem handleGetTask_absent {β : Type} (disk : Disk β) (s : TaskStore) (id : Int)
    (h : s.data.lookup id = none) :
    handleGetTask disk s id
      = { response := ⟨404, .text "404 page not found"⟩,
          store := s, disk := disk, saved := false } := by
  simp [handleGetTask, get_of_lookup_none s id h]

theorem handleUpdateTask_absent {β : Type} (c : Codec β) (disk : Disk β) (s : TaskStore)
    (id : Int) (body : Option updateTaskInput) (h : s.data.lookup id = none) :
    handleUpdateTask c disk s id body
      = { response := ⟨404, .text "404 page not found"⟩,
          store := s, disk := disk, saved := false } := by
  simp [handleUpdateTask, get_of_lookup_none s id h]

theorem handleUpdateTask_no_body {β : Type} (c : Codec β) (disk : Disk β) (s : TaskStore)
    (id : Int) (t0 : Task) (h : s.data.lookup id = some t0) :
    handleUpdateTask c disk s id none
      = { response := ⟨400, .text "invalid body"⟩,
          store := s, disk := disk, saved := false } := by
  simp [handleUpdateTask, get_of_lookup_some s id t0 h]

theorem handleUpdateTask_blank {β : Type} (c : Codec β) (disk : Disk β) (s : TaskStore)
    (id : Int) (t0 : Task) (inp : updateTaskInput) (h : s.data.lookup id = some t0)
    (hm : mergeUpdate t0 inp = none) :
    handleUpdateTask c disk s id (some inp)
      = { response := ⟨400, .text "title cannot be empty"⟩,
          store := s, disk := disk, saved := false } := by
  simp [handleUpdateTask, get_of_lookup_some s id t0 h, hm]

theorem handleUpdateTask_lost {β : Type} (c : Codec β) (disk : Disk β) (s : TaskStore)
    (id : Int) (t0 m : Task) (inp : updateTaskInput) (h : s.data.lookup id = some t0)
    (hm : mergeUpdate t0 inp = some m) (hk : s.data.lookup m.ID = none) :
    handleUpdateTask c disk s id (some inp)
      = { response := ⟨404, .text "404 page not found"⟩,
          store := s, disk := disk, saved := false } := by
  simp [handleUpdateTask, get_of_lookup_some s id t0 h, hm, TaskStore.Update, hk]

theorem handleUpdateTask_merged {β : Type} (c : Codec β) (disk : Disk β) (s : TaskStore)
    (id : Int) (t0 m u : Task) (inp : updateTaskInput) (h : s.data.lookup id = some t0)
    (hm : mergeUpdate t0 inp = some m) (hk : s.data.lookup m.ID = some u) :
    handleUpdateTask c disk s id (some inp)
      = persist c disk { s with data := s.data.insert m.ID m } ⟨200, .task m⟩ := by
  simp [handleUpdateTask, get_of_lookup_some s id t0 h, hm, TaskStore.Update, hk]

theorem handleDeleteTask_absent {β : Type} (c : Codec β) (disk : Disk β) (s : TaskStore)
    (id : Int) (h : s.data.lookup id = none) :
    handleDeleteTask c disk s id
      = { response := ⟨404, .text "404 page not found"⟩,
          store := s, disk := disk, saved := false } := by
  simp [handleDeleteTask, TaskStore.Delete, h]

theorem handleDeleteTask_present {β : Type} (c : Codec β) (disk : Disk β) (s : TaskStore)
    (id : Int) (t0 : Task) (h : s.data.lookup id = some t0) :
    handleDeleteTask c disk s id
      = persist c disk { s with data := s.data.erase id } ⟨204, .empty⟩ := by
  simp [handleDeleteTask, TaskStore.Delete, h]

theorem mergeUpdate_blank (t0 : Task) (inp : updateTaskInput) (x : String)
    (hx : inp.Title = some x) (hb : TrimSpace x = "") : mergeUpdate t0 inp = none := by
  simp [mergeUpdate, hx, hb]

theorem mergeUpdate_eq (t0 : Task) (inp : updateTaskInput)
    (h : ∀ x, inp.Title = some x → TrimSpace x ≠ "") :
    mergeUpdate t0 inp = some (mergedRecord t0 inp) := by
  obtain ⟨title, done⟩ := inp
  cases title with
  | none => cases done <;> rfl
  | some x =>
    have hx : TrimSpace x ≠ "" := h x rfl
    cases done <;> simp [mergeUpdate, mergedRecord, hx]

theorem mergeUpdate_some (t0 m : Task) (inp : updateTaskInput)
    (h : mergeUpdate t0 inp = some m) :
    m = mergedRecord t0 inp ∧ ∀ x, inp.Title = some x → TrimSpace x ≠ "" := by
  have hx : ∀ x, inp.Title = some x → TrimSpace x ≠ "" := by
    intro x hx hb
    rw [mergeUpdate_blank t0 inp x hx hb] at h
    cases h
  rw [mergeUpdate_eq t0 inp hx] at h
  exact ⟨(Option.some.inj h).symm, hx⟩

/-! ## Titles -/

theorem allTitlesGood_iff (s : TaskStore) :
    allTitlesGood s ↔ ∀ (k : Int) (t : Task), s.data.lookup k = some t → goodTitle t.Title := by
  constructor
  · intro h k t hl
    exact h ⟨k, t⟩ (AList.mem_lookup_iff.mp hl)
  · intro h e he
    exact h e.1 e.2 (AList.mem_lookup_iff.mpr he)

theorem mergedRecord_goodTitle (t0 : Task) (inp : updateTaskInput)
    (h0 : goodTitle t0.Title) (hx : ∀ x, inp.Title = some x → TrimSpace x ≠ "") :
    goodTitle (mergedRecord t0 inp).Title := by
  obtain ⟨title, done⟩ := inp
  cases title with
  | none => exact h0
  | some x => exact goodTitle_trimSpace x (hx x rfl)

theorem handle_keeps_titles {β : Type} (c : Codec β) (disk : Disk β) (s : TaskStore)
    (call : Call) (h : allTitlesGood s) : allTitlesGood (handle c disk s call).store := by
  rw [allTitlesGood_iff] at h
  cases call with
  | create body =>
    cases body with
    | none => exact (allTitlesGood_iff s).mpr h
    | some inp =>
      by_cases hb : TrimSpace inp.Title = ""
      · simp only [handle, handleCreateTask_blank c disk s inp hb]
        exact (allTitlesGood_iff s).mpr h
      · simp only [handle, handleCreateTask_valid c disk s inp hb, persist_store]
        rw [allTitlesGood_iff]
        intro k t hl
        by_cases hk : k = s.nextID
        · rw [hk, create_lookup_self] at hl
          cases hl
          exact goodTitle_trimSpace inp.Title hb
        · rw [create_lookup_ne s _ k hk] at hl
          exact h k t hl
  | update id body =>
    cases hl0 : s.data.lookup id with
    | none =>
      simp only [handle, handleUpdateTask_absent c disk s id body hl0]
      exact (allTitlesGood_iff s).mpr h
    | some t0 =>
      cases body with
      | none =>
        simp only [handle, handleUpdateTask_no_body c disk s id t0 hl0]
        exact (allTitlesGood_iff s).mpr h
      | some inp =>
        cases hm : mergeUpdate t0 inp with
        | none =>
          simp only [handle, handleUpdateTask_blank c disk s id t0 inp hl0 hm]
          exact (allTitlesGood_iff s).mpr h
        | some m =>
          cases hk : s.data.lookup m.ID with
          | none =>
            simp only [handle, handleUpdateTask_lost c disk s id t0 m inp hl0 hm hk]
            exact (allTitlesGood_iff s).mpr h
          | some u =>
            simp only [handle, handleUpdateTask_merged c disk s id t0 m u inp hl0 hm hk,
              persist_store]
            obtain ⟨hmr, hx⟩ := mergeUpdate_some t0 m inp hm
            have hgood : goodTitle m.Title := by
              rw [hmr]
              exact mergedRecord_goodTitle t0 inp (h id t0 hl0) hx
            rw [allTitlesGood_iff]
            intro k t hl
            by_cases hkm : k = m.ID
            · rw [hkm] at hl
              have : (s.data.insert m.ID m).lookup m.ID = some m := AList.lookup_insert s.data
              rw [show (AList.lookup m.ID (AList.insert m.ID m s.data) = some t) from hl] at this
              cases this
              exact hgood
            · have hl2 : (s.data.insert m.ID m).lookup k = some t := hl
              rw [AList.lookup_insert_ne hkm] at hl2
              exact h k t hl2
  | delete id =>
    cases hl0 : s.data.lookup id with
    | none =>
      simp only [handle, handleDeleteTask_absent c disk s id hl0]
      exact (allTitlesGood_iff s).mpr h
    | some t0 =>
      simp only [handle, handleDeleteTask_present c disk s id t0 hl0, persist_store]
      rw [allTitlesGood_iff]
      intro k t hl
      have hl2 : (s.data.erase id).lookup k = some t := hl
      by_cases hk : k = id
      · rw [hk, AList.lookup_erase] at hl2
        cases hl2
      · rw [AList.lookup_erase_ne hk] at hl2
        exact h k t hl2

theorem serveAll_keeps_titles {β : Type} (c : Codec β) (calls : List Call) (s : TaskStore)
    (disk : Disk β) (h : allTitlesGood s) : allTitlesGood (serveAll c s disk calls).1 := by
  induction calls generalizing s disk with
  | nil => exact h
  | cons call calls ih =>
    exact ih _ _ (handle_keeps_titles c disk s call h)

/-- C12 (as amended): in every store state reached from an empty store with no
file path through any sequence of `handleCreateTask`, `handleUpdateTask` and
`handleDeleteTask` calls with arbitrary bodies, every stored task has a title
that is not empty and equal to its own trimmed form. A create whose body does
not decode or whose title is empty or white space only is answered 400; an
update with such a title is answered 400 when its id is in the store and 404
when it is not; all of them leave the store unchanged and do not call `Save`. -/
theorem titles_never_blank {β : Type} (c : Codec β) (disk : Disk β) :
    (∀ calls : List Call, allTitlesGood (serveAll c (NewTaskStore c disk "") disk calls).1) ∧
    (∀ (s : TaskStore) (body : Option createTaskInput),
      (∀ inp, body = some inp → TrimSpace inp.Title = "") →
      (handleCreateTask c disk s body).response.code = 400 ∧
      (handleCreateTask c disk s body).store = s ∧
      (handleCreateTask c disk s body).saved = false) ∧
    (∀ (s : TaskStore) (id : Int) (inp : updateTaskInput) (x : String),
      inp.Title = some x → TrimSpace x = "" →
      (id ∈ s.data → (handleUpdateTask c disk s id (some inp)).response.code = 400) ∧
      (id ∉ s.data → (handleUpdateTask c disk s id (some inp)).response.code = 404) ∧
      (handleUpdateTask c disk s id (some inp)).store = s ∧
      (handleUpdateTask c disk s id (some inp)).saved = false) := by
  refine ⟨?_, ?_, ?_⟩
  · intro calls
    apply serveAll_keeps_titles
    rw [newTaskStore_no_path]
    intro e he
    simp [emptyStore] at he
  · intro s body hb
    cases body with
    | none => exact ⟨rfl, rfl, rfl⟩
    | some inp =>
      rw [handleCreateTask_blank c disk s inp (hb inp rfl)]
      exact ⟨rfl, rfl, rfl⟩
  · intro s id inp x hx hb
    cases hl : s.data.lookup id with
    | none =>
      have hn : id ∉ s.data := AList.lookup_eq_none.mp hl
      rw [handleUpdateTask_absent c disk s id (some inp) hl]
      exact ⟨fun hm => absurd hm hn, fun _ => rfl, rfl, rfl⟩
    | some t0 =>
      have hm : id ∈ s.data := AList.lookup_isSome.mp (by simp [hl])
      rw [handleUpdateTask_blank c disk s id t0 inp hl (mergeUpdate_blank t0 inp x hx hb)]
      exact ⟨fun _ => rfl, fun hn => absurd hm hn, rfl, rfl⟩

/-- C12, instance: on a store with no file path, creating "  Init  ", updating
task 1 with the title "   " and creating with the title "\t" leaves one task,
titled "Init"; the blank update of the stored task 1 is answered 400. -/
theorem titles_never_blank_witness :
    allTitlesGood (serveAll imageCodec (NewTaskStore imageCodec noFiles "") noFiles
      [.create (some ⟨"  Init  "⟩), .update 1 (some ⟨some "   ", none⟩),
       .create (some ⟨"\t"⟩)]).1 ∧
    (serveAll imageCodec (NewTaskStore imageCodec noFiles "") noFiles
      [.create (some ⟨"  Init  "⟩), .update 1 (some ⟨some "   ", none⟩),
       .create (some ⟨"\t"⟩)]).1.List.1 = [{ ID := 1, Title := "Init", Done := false }] ∧
    (handleUpdateTask imageCodec noFiles
      ((NewTaskStore imageCodec noFiles "").Create "Init").2 1
      (some ⟨some "   ", none⟩)).response.code = 400 :=
  ⟨(titles_never_blank imageCodec noFiles).1 _,
   by decide,
   ((titles_never_blank imageCodec noFiles).2.2
      ((NewTaskStore imageCodec noFiles "").Create "Init").2 1 ⟨some "   ", none⟩ "   "
      rfl (by decide)).1 (by decide)⟩

/-- C12, counterexample: on the empty store with no file path, an update of
id 5 whose title is white space only is answered 404, not 400. -/
theorem blank_update_of_missing_id :
    (handleUpdateTask imageCodec noFiles (NewTaskStore imageCodec noFiles "") 5
      (some ⟨some "   ", none⟩)).response.code = 404 ∧
    ¬ (handleUpdateTask imageCodec noFiles (NewTaskStore imageCodec noFiles "") 5
      (some ⟨some "   ", none⟩)).response.code = 400 := by
  decide

/-! ## The update handler -/

theorem handleUpdateTask_coherent {β : Type} (c : Codec β) (disk : Disk β) (s : TaskStore)
    (id : Int) (t0 : Task) (inp : updateTaskInput) (h : s.data.lookup id = some t0)
    (hid : t0.ID = id) (hx : ∀ x, inp.Title = some x → TrimSpace x ≠ "") :
    handleUpdateTask c disk s id (some inp)
      = persist c disk { s with data := s.data.insert id (mergedRecord t0 inp) }
          ⟨200, .task (mergedRecord t0 inp)⟩ := by
  have hm := mergeUpdate_eq t0 inp hx
  have hmid : (mergedRecord t0 inp).ID = id := hid
  have hk : s.data.lookup (mergedRecord t0 inp).ID = some t0 := by rw [hmid]; exact h
  rw [handleUpdateTask_merged c disk s id t0 (mergedRecord t0 inp) t0 inp h hm hk, hmid]

/-- C13 (as amended): for every store state, every id whose stored record
carries that id, and every decoded update body whose title, if supplied, is not
empty after trimming, `handleUpdateTask` applies only the provided fields: the
task stored under the id afterwards, which is also the one returned, has the
same id, the trimmed supplied title if a title was supplied and the previous
title otherwise, the supplied done flag if one was supplied and the previous
flag otherwise; all other entries and the counter are unchanged; `Save` is
called, and the response is 200 with that task when `Save` succeeds. A supplied
title that is empty after trimming is answered 400 and nothing is applied. -/
theorem update_handler_merges {β : Type} (c : Codec β) (disk : Disk β) (s : TaskStore)
    (id : Int) (t0 : Task) (inp : updateTaskInput)
    (h : (s.Get id).1 = .ok t0) (hid : t0.ID = id) :
    ((∀ x, inp.Title = some x → TrimSpace x ≠ "") →
      (handleUpdateTask c disk s id (some inp)).store.data.lookup id
        = some (mergedRecord t0 inp) ∧
      (mergedRecord t0 inp).ID = id ∧
      (∀ x, inp.Title = some x → (mergedRecord t0 inp).Title = TrimSpace x) ∧
      (inp.Title = none → (mergedRecord t0 inp).Title = t0.Title) ∧
      (∀ d, inp.Done = some d → (mergedRecord t0 inp).Done = d) ∧
      (inp.Done = none → (mergedRecord t0 inp).Done = t0.Done) ∧
      (∀ j : Int, j ≠ id →
        (handleUpdateTask c disk s id (some inp)).store.data.lookup j = s.data.lookup j) ∧
      (handleUpdateTask c disk s id (some inp)).store.nextID = s.nextID ∧
      (handleUpdateTask c disk s id (some inp)).saved = true ∧
      (((handleUpdateTask c disk s id (some inp)).store.Save c disk).1 = .ok () →
        (handleUpdateTask c disk s id (some inp)).response
          = ⟨200, .task (mergedRecord t0 inp)⟩)) ∧
    (∀ x, inp.Title = some x → TrimSpace x = "" →
      (handleUpdateTask c disk s id (some inp)).response.code = 400 ∧
      (handleUpdateTask c disk s id (some inp)).store = s) := by
  have hl : s.data.lookup id = some t0 := by
    cases hl : s.data.lookup id with
    | none =>
      rw [get_of_lookup_none s id hl] at h
      cases h
    | some u =>
      rw [get_of_lookup_some s id u hl] at h
      cases h
      rfl
  constructor
  · intro hx
    rw [handleUpdateTask_coherent c disk s id t0 inp hl hid hx]
    refine ⟨?_, hid, ?_, ?_, ?_, ?_, ?_, ?_, ?_, ?_⟩
    · rw [persist_store]
      exact AList.lookup_insert s.data
    · intro x hx2
      simp [mergedRecord, hx2]
    · intro hn
      simp [mergedRecord, hn]
    · intro d hd
      simp [mergedRecord, hd]
    · intro hn
      simp [mergedRecord, hn]
    · intro j hj
      rw [persist_store]
      exact AList.lookup_insert_ne hj
    · rw [persist_store]
    · exact persist_saved _ _ _ _
    · intro hs
      rw [persist_store] at hs
      exact persist_response_ok c disk _ _ hs
  · intro x hx hb
    rw [handleUpdateTask_blank c disk s id t0 inp hl (mergeUpdate_blank t0 inp x hx hb)]
    exact ⟨rfl, rfl⟩

/-- C13, instance (the scenario of `TestUpdateTask`): on a store with no file
path holding task 1 "Apprendre Go", the update of task 1 with title
" Apprendre Go (v2) " and done = true is answered 200 with the task titled
"Apprendre Go (v2)" and done, which is then stored under id 1. -/
theorem update_handler_merges_witness :
    (handleUpdateTask imageCodec noFiles
      ((NewTaskStore imageCodec noFiles "").Create "Apprendre Go").2 1
      (some ⟨some " Apprendre Go (v2) ", some true⟩)).response
      = ⟨200, .task { ID := 1, Title := "Apprendre Go (v2)", Done := true }⟩ ∧
    (handleUpdateTask imageCodec noFiles
      ((NewTaskStore imageCodec noFiles "").Create "Apprendre Go").2 1
      (some ⟨some " Apprendre Go (v2) ", some true⟩)).store.data.lookup 1
      = some { ID := 1, Title := "Apprendre Go (v2)", Done := true } :=
  have h := (update_handler_merges imageCodec noFiles
    ((NewTaskStore imageCodec noFiles "").Create "Apprendre Go").2 1
    { ID := 1, Title := "Apprendre Go", Done := false }
    ⟨some " Apprendre Go (v2) ", some true⟩ rfl rfl).1
    (by intro x hx; cases hx; decide)
  ⟨(h.2.2.2.2.2.2.2.2.2 rfl).trans (by decide), h.1.trans (by decide)⟩

/-- C13, counterexample: in the store loaded from a file whose entries under
keys 1 and 2 both carry `ID = 2`, the update of id 1 with title "z" is answered
200, leaves the task under key 1 with its old title and replaces the task under
key 2; and on a store holding task 1, a body with a white-space title and
done = true is answered 400 and the done flag is not applied. -/
theorem update_handler_key_mismatch :
    (handleUpdateTask imageCodec noFiles
      (NewTaskStore imageCodec
        (oneFile "tasks.json"
          { NextID := 3,
            Data := some (AList.insert 1 { ID := 2, Title := "a", Done := false }
              (AList.insert 2 { ID := 2, Title := "b", Done := false } ∅)) })
        "tasks.json") 1 (some ⟨some "z", none⟩)).response.code = 200 ∧
    (handleUpdateTask imageCodec noFiles
      (NewTaskStore imageCodec
        (oneFile "tasks.json"
          { NextID := 3,
            Data := some (AList.insert 1 { ID := 2, Title := "a", Done := false }
              (AList.insert 2 { ID := 2, Title := "b", Done := false } ∅)) })
        "tasks.json") 1 (some ⟨some "z", none⟩)).store.data.lookup 1
      = some { ID := 2, Title := "a", Done := false } ∧
    (handleUpdateTask imageCodec noFiles
      (NewTaskStore imageCodec
        (oneFile "tasks.json"
          { NextID := 3,
            Data := some (AList.insert 1 { ID := 2, Title := "a", Done := false }
              (AList.insert 2 { ID := 2, Title := "b", Done := false } ∅)) })
        "tasks.json") 1 (some ⟨some "z", none⟩)).store.data.lookup 2
      = some { ID := 2, Title := "z", Done := false } ∧
    (handleUpdateTask imageCodec noFiles
      ((NewTaskStore imageCodec noFiles "").Create "a").2 1
      (some ⟨some "  ", some true⟩)).response.code = 400 ∧
    (handleUpdateTask imageCodec noFiles
      ((NewTaskStore imageCodec noFiles "").Create "a").2 1
      (some ⟨some "  ", some true⟩)).store.data.lookup 1
      = some { ID := 1, Title := "a", Done := false } := by
  decide

/-! ## Handlers when Save fails -/

theorem mem_list_of_lookup (s : TaskStore) (k : Int) (t : Task)
    (h : s.data.lookup k = some t) : t ∈ s.List.1 := by
  have he : (⟨k, t⟩ : Sigma (fun _ : Int => Task)) ∈ s.data.entries :=
    AList.mem_lookup_iff.mp h
  exact List.mem_map.mpr ⟨⟨k, t⟩, he, rfl⟩

/-- C14 (as amended): when the `Save` a handler calls fails, the handler
answers 500 and the mutation stays applied in memory: after a create with a
title that is not blank, the new task is returned by `Get` and is in `List`;
after an update (id present, its record carrying that id, title not blank if
supplied), `Get` returns the merged record; after a delete of a present id,
`Get` fails with `ErrNotFound`. -/
theorem save_failure_keeps_mutation {β : Type} (c : Codec β) (disk : Disk β) (s : TaskStore) :
    (∀ (inp : createTaskInput) (e : StoreError), TrimSpace inp.Title ≠ "" →
      ((handleCreateTask c disk s (some inp)).store.Save c disk).1 = .error e →
      (handleCreateTask c disk s (some inp)).response.code = 500 ∧
      ((handleCreateTask c disk s (some inp)).store.Get s.nextID).1
        = .ok { ID := s.nextID, Title := TrimSpace inp.Title, Done := false } ∧
      ({ ID := s.nextID, Title := TrimSpace inp.Title, Done := false } : Task)
        ∈ (handleCreateTask c disk s (some inp)).store.List.1) ∧
    (∀ (id : Int) (t0 : Task) (inp : updateTaskInput) (e : StoreError),
      s.data.lookup id = some t0 → t0.ID = id →
      (∀ x, inp.Title = some x → TrimSpace x ≠ "") →
      ((handleUpdateTask c disk s id (some inp)).store.Save c disk).1 = .error e →
      (handleUpdateTask c disk s id (some inp)).response.code = 500 ∧
      ((handleUpdateTask c disk s id (some inp)).store.Get id).1
        = .ok (mergedRecord t0 inp)) ∧
    (∀ (id : Int) (e : StoreError), id ∈ s.data →
      ((handleDeleteTask c disk s id).store.Save c disk).1 = .error e →
      (handleDeleteTask c disk s id).response.code = 500 ∧
      ((handleDeleteTask c disk s id).store.Get id).1 = .error .ErrNotFound) := by
  refine ⟨?_, ?_, ?_⟩
  · intro inp e hb hs
    rw [handleCreateTask_valid c disk s inp hb] at hs ⊢
    rw [persist_store] at hs ⊢
    have hl := create_lookup_self s (TrimSpace inp.Title)
    refine ⟨?_, ?_, ?_⟩
    · rw [persist_response_error c disk _ _ e hs]
    · rw [get_of_lookup_some _ _ _ hl]
    · exact mem_list_of_lookup _ _ _ hl
  · intro id t0 inp e hl hid hx hs
    rw [handleUpdateTask_coherent c disk s id t0 inp hl hid hx] at hs ⊢
    rw [persist_store] at hs ⊢
    refine ⟨?_, ?_⟩
    · rw [persist_response_error c disk _ _ e hs]
    · rw [get_of_lookup_some _ id (mergedRecord t0 inp) (AList.lookup_insert s.data)]
  · intro id e hm hs
    obtain ⟨t0, hl⟩ := lookup_of_mem s.data id hm
    rw [handleDeleteTask_present c disk s id t0 hl] at hs ⊢
    rw [persist_store] at hs ⊢
    refine ⟨?_, ?_⟩
    · rw [persist_response_error c disk _ _ e hs]
    · rw [get_of_lookup_none _ id (AList.lookup_erase id s.data)]

/-- C14, instance (the scenario of `TestPersistenceErrorsReturn500`): the
store's path is a directory. The create of "X" is answered 500 and task 1 is in
the store; the update of task 1 with done = true is answered 500 and `Get 1`
returns it done; the delete of task 1 is answered 500 and `Get 1` fails. -/
theorem save_failure_keeps_mutation_witness :
    (handleCreateTask imageCodec (directoryAt "dir")
      (NewTaskStore imageCodec (directoryAt "dir") "dir") (some ⟨"X"⟩)).response.code = 500 ∧
    ((handleCreateTask imageCodec (directoryAt "dir")
      (NewTaskStore imageCodec (directoryAt "dir") "dir") (some ⟨"X"⟩)).store.Get 1).1
      = .ok { ID := 1, Title := "X", Done := false } ∧
    (handleUpdateTask imageCodec (directoryAt "dir")
      ((NewTaskStore imageCodec (directoryAt "dir") "dir").Create "temp").2 1
      (some ⟨none, some true⟩)).response.code = 500 ∧
    ((handleUpdateTask imageCodec (directoryAt "dir")
      ((NewTaskStore imageCodec (directoryAt "dir") "dir").Create "temp").2 1
      (some ⟨none, some true⟩)).store.Get 1).1
      = .ok { ID := 1, Title := "temp", Done := true } ∧
    (handleDeleteTask imageCodec (directoryAt "dir")
      ((NewTaskStore imageCodec (directoryAt "dir") "dir").Create "temp").2 1).response.code
      = 500 ∧
    ((handleDeleteTask imageCodec (directoryAt "dir")
      ((NewTaskStore imageCodec (directoryAt "dir") "dir").Create "temp").2 1).store.Get 1).1
      = .error .ErrNotFound :=
  have hc := (save_failure_keeps_mutation imageCodec (directoryAt "dir")
    (NewTaskStore imageCodec (directoryAt "dir") "dir")).1 ⟨"X"⟩ .writeError (by decide) rfl
  have hu := (save_failure_keeps_mutation imageCodec (directoryAt "dir")
    ((NewTaskStore imageCodec (directoryAt "dir") "dir").Create "temp").2).2.1 1
    { ID := 1, Title := "temp", Done := false } ⟨none, some true⟩ .writeError rfl rfl
    (by intro x hx; cases hx) rfl
  have hd := (save_failure_keeps_mutation imageCodec (directoryAt "dir")
    ((NewTaskStore imageCodec (directoryAt "dir") "dir").Create "temp").2).2.2 1
    .writeError (by decide) rfl
  ⟨hc.1, hc.2.1, hu.1, hu.2, hd.1, hd.2⟩

/-- C14, counterexample: a store was loaded from a file whose entry under key 1
carries `ID = 7`, and its path can no longer be written, so `Save` fails. The
update of id 1, present in the store, with done = true is answered 404, not
500, and `Get 1` returns the old record: nothing was applied. -/
theorem save_failure_update_not_500 :
    ((NewTaskStore imageCodec
        (oneFile "tasks.json"
          { NextID := 2, Data := some (AList.insert 1 { ID := 7, Title := "x", Done := false } ∅) })
        "tasks.json").Save imageCodec (directoryAt "tasks.json")).1 = .error .writeError ∧
    (handleUpdateTask imageCodec (directoryAt "tasks.json")
      (NewTaskStore imageCodec
        (oneFile "tasks.json"
          { NextID := 2, Data := some (AList.insert 1 { ID := 7, Title := "x", Done := false } ∅) })
        "tasks.json") 1 (some ⟨none, some true⟩)).response.code = 404 ∧
    ¬ (handleUpdateTask imageCodec (directoryAt "tasks.json")
      (NewTaskStore imageCodec
        (oneFile "tasks.json"
          { NextID := 2, Data := some (AList.insert 1 { ID := 7, Title := "x", Done := false } ∅) })
        "tasks.json") 1 (some ⟨none, some true⟩)).response.code = 500 ∧
    ((handleUpdateTask imageCodec (directoryAt "tasks.json")
      (NewTaskStore imageCodec
        (oneFile "tasks.json"
          { NextID := 2, Data := some (AList.insert 1 { ID := 7, Title := "x", Done := false } ∅) })
        "tasks.json") 1 (some ⟨none, some true⟩)).store.Get 1).1
      = .ok { ID := 7, Title := "x", Done := false } := by
  refine ⟨rfl, by decide, by decide, rfl⟩

/-! ## Not found -/

/-- C15: for every store state and every id absent from the store, the get,
update and delete handlers answer 404, do not call `Save`, and leave the store
(map, counter, path) and the disk unchanged, whatever the request body is. -/
theorem not_found_no_persistence {β : Type} (c : Codec β) (disk : Disk β) (s : TaskStore)
    (id : Int) (h : id ∉ s.data) :
    ((handleGetTask disk s id).response.code = 404 ∧
      (handleGetTask disk s id).saved = false ∧
      (handleGetTask disk s id).store = s ∧
      (handleGetTask disk s id).disk = disk) ∧
    (∀ body : Option updateTaskInput,
      (handleUpdateTask c disk s id body).response.code = 404 ∧
      (handleUpdateTask c disk s id body).saved = false ∧
      (handleUpdateTask c disk s id body).store = s ∧
      (handleUpdateTask c disk s id body).disk = disk) ∧
    ((handleDeleteTask c disk s id).response.code = 404 ∧
      (handleDeleteTask c disk s id).saved = false ∧
      (handleDeleteTask c disk s id).store = s ∧
      (handleDeleteTask c disk s id).disk = disk) := by
  have hl : s.data.lookup id = none := AList.lookup_eq_none.mpr h
  refine ⟨?_, ?_, ?_⟩
  · rw [handleGetTask_absent disk s id hl]
    exact ⟨rfl, rfl, rfl, rfl⟩
  · intro body
    rw [handleUpdateTask_absent c disk s id body hl]
    exact ⟨rfl, rfl, rfl, rfl⟩
  · rw [handleDeleteTask_absent c disk s id hl]
    exact ⟨rfl, rfl, rfl, rfl⟩

/-- C15, instance (`TestUpdateNotFound`, `TestDeleteNotFound`): on the store
holding only task 1, the update of id 9999 with title "Ghost" and the delete
of id 1234 are answered 404 without a call of `Save`. -/
theorem not_found_no_persistence_witness :
    (handleUpdateTask imageCodec noFiles ((emptyStore "tasks.json").Create "a").2 9999
      (some ⟨some "Ghost", none⟩)).response.code = 404 ∧
    (handleUpdateTask imageCodec noFiles ((emptyStore "tasks.json").Create "a").2 9999
      (some ⟨some "Ghost", none⟩)).saved = false ∧
    (handleDeleteTask imageCodec noFiles ((emptyStore "tasks.json").Create "a").2
      1234).response.code = 404 ∧
    (handleDeleteTask imageCodec noFiles ((emptyStore "tasks.json").Create "a").2
      1234).saved = false :=
  have hu := (not_found_no_persistence imageCodec noFiles
    ((emptyStore "tasks.json").Create "a").2 9999 (by decide)).2.1 (some ⟨some "Ghost", none⟩)
  have hd := (not_found_no_persistence imageCodec noFiles
    ((emptyStore "tasks.json").Create "a").2 1234 (by decide)).2.2
  ⟨hu.1, hu.2.1, hd.1, hd.2.1⟩

/-! ## The `/tasks/` route -/

/-- C17: for every request to the `/tasks/` route whose id segment does not
parse as a decimal `int64` or parses to zero or a negative number, the route
answers 400 whatever the method is and calls no handler, so the store and the
disk are unchanged and `Save` is not called; and whenever the route does call
the get, update or delete handler, the id it passes is the parsed id and is
strictly positive. -/
theorem route_rejects_bad_ids {β : Type} (parseInt : String → Option Int) (c : Codec β)
    (disk : Disk β) (s : TaskStore) (r : Request) :
    ((parseInt (TrimPrefix r.Path "/tasks/") = none ∨
        ∃ id, parseInt (TrimPrefix r.Path "/tasks/") = some id ∧ id ≤ 0) →
      routeTask parseInt r = .invalidID ∧
      (serveTask parseInt c disk s r).response.code = 400 ∧
      (serveTask parseInt c disk s r).store = s ∧
      (serveTask parseInt c disk s r).disk = disk ∧
      (serveTask parseInt c disk s r).saved = false) ∧
    (∀ id : Int,
      (routeTask parseInt r = .get id ∨ routeTask parseInt r = .update id ∨
        routeTask parseInt r = .delete id) →
      0 < id ∧ parseInt (TrimPrefix r.Path "/tasks/") = some id) := by
  constructor
  · intro h
    have hr : routeTask parseInt r = .invalidID := by
      unfold routeTask
      rcases h with hn | ⟨id, hid, hle⟩
      · rw [hn]
      · rw [hid]
        simp [hle]
    refine ⟨hr, ?_⟩
    unfold serveTask
    rw [hr]
    exact ⟨rfl, rfl, rfl, rfl⟩
  · intro id h
    unfold routeTask at h
    cases hp : parseInt (TrimPrefix r.Path "/tasks/") with
    | none =>
      rw [hp] at h
      rcases h with h | h | h <;> cases h
    | some k =>
      rw [hp] at h
      by_cases hk : k ≤ 0
      · simp only [hk, if_true] at h
        rcases h with h | h | h <;> cases h
      · simp only [hk, if_false] at h
        have hid : k = id := by
          by_cases h1 : r.Method = "GET"
          · simp only [h1, if_true] at h
            rcases h with h | h | h
            · exact Route.get.inj h
            · cases h
            · cases h
          · by_cases h2 : r.Method = "PUT"
            · simp only [h1, h2, if_true, if_false] at h
              rcases h with h | h | h
              · cases h
              · exact Route.update.inj h
              · cases h
            · by_cases h3 : r.Method = "DELETE"
              · simp only [h1, h2, h3, if_true, if_false] at h
                rcases h with h | h | h
                · cases h
                · cases h
                · exact Route.delete.inj h
              · simp only [h1, h2, h3, if_false] at h
                rcases h with h | h | h <;> cases h
        rw [← hid]
        exact ⟨by omega, rfl⟩

/-- C17, instance (`TestInvalidID`, `TestInvalidIDZeroNegative`): a GET with the
id segment "abc", a DELETE with the id segment "0" and a PUT with the id
segment "-1" are answered 400 and leave the store holding task 1 as it is,
while a GET with the id segment "1" reaches the get handler with id 1. -/
theorem route_rejects_bad_ids_witness :
    (serveTask parseInt10 imageCodec noFiles ((emptyStore "").Create "a").2
      ⟨"GET", "/tasks/abc", none, none⟩).response.code = 400 ∧
    (serveTask parseInt10 imageCodec noFiles ((emptyStore "").Create "a").2
      ⟨"DELETE", "/tasks/0", none, none⟩).response.code = 400 ∧
    (serveTask parseInt10 imageCodec noFiles ((emptyStore "").Create "a").2
      ⟨"PUT", "/tasks/-1", none, some ⟨some "b", none⟩⟩).store
      = ((emptyStore "").Create "a").2 ∧
    routeTask parseInt10 ⟨"GET", "/tasks/1", none, none⟩ = .get 1 ∧
    (0 : Int) < 1 :=
  have h1 := (route_rejects_bad_ids parseInt10 imageCodec noFiles ((emptyStore "").Create "a").2
    ⟨"GET", "/tasks/abc", none, none⟩).1 (Or.inl (by decide))
  have h2 := (route_rejects_bad_ids parseInt10 imageCodec noFiles ((emptyStore "").Create "a").2
    ⟨"DELETE", "/tasks/0", none, none⟩).1 (Or.inr ⟨0, by decide, by decide⟩)
  have h3 := (route_rejects_bad_ids parseInt10 imageCodec noFiles ((emptyStore "").Create "a").2
    ⟨"PUT", "/tasks/-1", none, some ⟨some "b", none⟩⟩).1 (Or.inr ⟨-1, by decide, by decide⟩)
  have h4 := (route_rejects_bad_ids parseInt10 imageCodec noFiles ((emptyStore "").Create "a").2
    ⟨"GET", "/tasks/1", none, none⟩).2 1 (Or.inl (by decide))
  ⟨h1.2.1, h2.2.1, h3.2.2.1, by decide, h4.1⟩

/-! ## Save between other calls -/

theorem saveInterleaved_nil {β : Type} (c : Codec β) (disk : Disk β) (s : TaskStore) :
    saveInterleaved c disk s [] = ((s.Save c disk).1, (s.Save c disk).2.2) := by
  unfold saveInterleaved TaskStore.saveSnapshot TaskStore.saveWrite TaskStore.Save
  by_cases h : s.filePath = ""
  · simp [h]
  · simp only [h, if_false, run_nil]
    cases hm : c.marshal { NextID := s.nextID, Data := some s.data } with
    | none => rfl
    | some b =>
      cases hw : writeFile disk s.filePath b with
      | none => simp [hw]
      | some d => simp [hw]

/-- C19, the code at the failing schedule: `Save` on the empty store at
"tasks.json" takes its snapshot (counter 1, empty map), `Create "a"` then runs
to completion, and `Save` encodes and writes. The file then holds `next_id = 1`
with task 1 in `data`: neither the store state at the snapshot (empty map) nor
the state after the `Create` (counter 2). -/
theorem save_writes_later_mutation :
    (NewTaskStore imageCodec noFiles "tasks.json").saveSnapshot = some 1 ∧
    (NewTaskStore imageCodec noFiles "tasks.json").data.keys = [] ∧
    (saveInterleaved imageCodec noFiles (NewTaskStore imageCodec noFiles "tasks.json")
        [.create "a"]).1 = .ok () ∧
    (saveInterleaved imageCodec noFiles (NewTaskStore imageCodec noFiles "tasks.json")
        [.create "a"]).2 "tasks.json"
      = .content { NextID := 1,
                   Data := some (AList.insert 1 { ID := 1, Title := "a", Done := false } ∅) } ∧
    (saveInterleaved imageCodec noFiles (NewTaskStore imageCodec noFiles "tasks.json")
        []).2 "tasks.json"
      = .content { NextID := 1, Data := some ∅ } ∧
    (run imageCodec (NewTaskStore imageCodec noFiles "tasks.json") [.create "a"]).nextID = 2 := by
  refine ⟨rfl, rfl, rfl, rfl, rfl, by decide⟩

/-! ## Keys and nested ids -/

theorem keysMatchIDs_iff (m : TaskMap) :
    keysMatchIDs m ↔ ∀ (k : Int) (t : Task), m.lookup k = some t → t.ID = k := by
  constructor
  · intro h k t hl
    exact h ⟨k, t⟩ (AList.mem_lookup_iff.mp hl)
  · intro h e he
    exact h e.1 e.2 (AList.mem_lookup_iff.mpr he)

theorem step_keeps_keysMatchIDs {β : Type} (c : Codec β) (s : TaskStore) (op : Op β)
    (hl : ∀ disk, op ≠ .load disk) (h : keysMatchIDs s.data) :
    keysMatchIDs (step c s op).data := by
  rw [keysMatchIDs_iff] at h
  cases op with
  | create title =>
    rw [keysMatchIDs_iff]
    intro k t hk
    have hk2 : (s.Create title).2.data.lookup k = some t := hk
    by_cases hkn : k = s.nextID
    · rw [hkn, create_lookup_self] at hk2
      cases hk2
      exact hkn.symm
    · rw [create_lookup_ne s title k hkn] at hk2
      exact h k t hk2
  | list => exact (keysMatchIDs_iff _).mpr h
  | get id =>
    simp only [step, TaskStore.Get]
    split <;> exact (keysMatchIDs_iff _).mpr h
  | update u =>
    simp only [step, TaskStore.Update]
    split
    · exact (keysMatchIDs_iff _).mpr h
    · rw [keysMatchIDs_iff]
      intro k t hk
      have hk2 : (s.data.insert u.ID u).lookup k = some t := hk
      by_cases hku : k = u.ID
      · rw [hku, AList.lookup_insert] at hk2
        cases hk2
        exact hku.symm
      · rw [AList.lookup_insert_ne hku] at hk2
        exact h k t hk2
  | delete id =>
    simp only [step, TaskStore.Delete]
    split
    · exact (keysMatchIDs_iff _).mpr h
    · rw [keysMatchIDs_iff]
      intro k t hk
      have hk2 : (s.data.erase id).lookup k = some t := hk
      by_cases hki : k = id
      · rw [hki, AList.lookup_erase] at hk2
        cases hk2
      · rw [AList.lookup_erase_ne hki] at hk2
        exact h k t hk2
  | save disk =>
    have he : step c s (.save disk) = s := save_store c disk s
    rw [he]
    exact (keysMatchIDs_iff _).mpr h
  | load disk => exact absurd rfl (hl disk)

theorem run_keeps_keysMatchIDs {β : Type} (c : Codec β) (ops : List (Op β)) (s : TaskStore)
    (hl : ∀ op ∈ ops, ∀ disk, op ≠ Op.load disk) (h : keysMatchIDs s.data) :
    keysMatchIDs (run c s ops).data := by
  induction ops generalizing s with
  | nil => exact h
  | cons op ops ih =>
    rw [run_cons]
    exact ih _ (fun o ho => hl o (List.mem_cons_of_mem _ ho))
      (step_keeps_keysMatchIDs c s op (hl op (List.mem_cons_self _ _)) h)

theorem run_filePath {β : Type} (c : Codec β) (ops : List (Op β)) (s : TaskStore) :
    (run c s ops).filePath = s.filePath := by
  induction ops generalizing s with
  | nil => rfl
  | cons op ops ih => rw [run_cons, ih, step_filePath]

/-- C20: in every store state reached from a fresh empty store by any sequence
of `Create`, `Update` and `Delete` (and `Get`, `List`, `Save`), each entry of
the map is stored under the key equal to the `ID` field of its task; so every
image a successful `Save` writes from such a state is the encoding of an image
whose `data` keys match the nested ids. -/
theorem keys_match_ids_reachable {β : Type} (c : Codec β) (disk0 : Disk β) (path : String)
    (ops : List (Op β))
    (h0 : loadedImage c disk0 (emptyStore path) = none)
    (hl : ∀ op ∈ ops, ∀ d, op ≠ Op.load d) :
    keysMatchIDs (run c (NewTaskStore c disk0 path) ops).data ∧
    (∀ (k : Int) (t : Task),
      (run c (NewTaskStore c disk0 path) ops).data.lookup k = some t → t.ID = k) ∧
    (∀ disk : Disk β, path ≠ "" →
      ((run c (NewTaskStore c disk0 path) ops).Save c disk).1 = .ok () →
      ∃ b d nextID, c.marshal { NextID := nextID, Data := some d } = some b ∧
        ((run c (NewTaskStore c disk0 path) ops).Save c disk).2.2 path = .content b ∧
        keysMatchIDs d) := by
  have hnew : NewTaskStore c disk0 path = emptyStore path := by
    unfold NewTaskStore
    rw [load_eq, h0]
  rw [hnew]
  have hempty : keysMatchIDs (emptyStore path).data := by
    intro e he
    simp [emptyStore] at he
  have hinv := run_keeps_keysMatchIDs c ops (emptyStore path) hl hempty
  refine ⟨hinv, (keysMatchIDs_iff _).mp hinv, ?_⟩
  intro disk hp hs
  have hfp : (run c (emptyStore path) ops).filePath = path := run_filePath c ops _
  have hfp2 : (run c (emptyStore path) ops).filePath ≠ "" := by rw [hfp]; exact hp
  obtain ⟨b, hm, hd⟩ := save_ok_content c disk _ hfp2 hs
  rw [hfp] at hd
  exact ⟨b, _, _, hm, hd, hinv⟩

/-- C20, instance: a store on "tasks.json" with no file yet, after `Create "a"`,
`Create "b"`, `Update` of task 2 and `Delete 1`, holds task 2 under key 2, and
the image `Save` writes has the single key 2 with nested id 2. -/
theorem keys_match_ids_reachable_witness :
    keysMatchIDs (run imageCodec (NewTaskStore imageCodec noFiles "tasks.json")
      [.create "a", .create "b", .update { ID := 2, Title := "c", Done := true },
       .delete 1]).data ∧
    ((run imageCodec (NewTaskStore imageCodec noFiles "tasks.json")
      [.create "a", .create "b", .update { ID := 2, Title := "c", Done := true },
       .delete 1]).Save imageCodec noFiles).2.2 "tasks.json"
      = .content { NextID := 3,
                   Data := some (AList.insert 2 { ID := 2, Title := "c", Done := true } ∅) } :=
  ⟨(keys_match_ids_reachable imageCodec noFiles "tasks.json"
      [.create "a", .create "b", .update { ID := 2, Title := "c", Done := true }, .delete 1]
      rfl
      (by
        intro op hop d
        simp only [List.mem_cons, List.mem_singleton, List.not_mem_nil, or_false] at hop
        rcases hop with h | h | h | h <;> rw [h] <;> exact Op.noConfusion)).1,
   rfl⟩

end TaskApi
